import Mathlib

abbrev Str := List Char

/-- Python `s.lower()` restricted to ASCII (all texts handled by the pipeline
are ASCII where case matters). -/
def pyLower (s : Str) : Str := s.map Char.toLower

/-- Python `needle in hay` (substring test). -/
def strContains (hay needle : Str) : Bool :=
  hay.tails.any fun t => needle.isPrefixOf t

/-- Python `s.strip()` (whitespace from both ends). -/
def pyStrip (s : Str) : Str :=
  ((s.dropWhile Char.isWhitespace).reverse.dropWhile Char.isWhitespace).reverse

/-- Python `s.strip('/')`. -/
def pyStripSlash (s : Str) : Str :=
  ((s.dropWhile (· == '/')).reverse.dropWhile (· == '/')).reverse

/-- Python `str(n)` for a natural number. -/
def natStr (n : Nat) : Str := (Nat.repr n).toList

/-- Fuel-indexed worker for `removeAll` (structural recursion on the fuel so
that the kernel can evaluate it); the fuel always suffices because each step
consumes at least one character. -/
def removeAllF (p0 : Char) (ps : Str) : Nat → Str → Str
  | _, [] => []
  | 0, s => s
  | n + 1, c :: rest =>
      if (p0 :: ps).isPrefixOf (c :: rest) then
        removeAllF p0 ps n (rest.drop ps.length)
      else
        c :: removeAllF p0 ps n rest

/-- Python `s.replace(pat, '')` for a non-empty pattern `p0 :: ps`:
removes every (left-to-right, non-overlapping) occurrence. -/
def removeAll (p0 : Char) (ps : Str) (s : Str) : Str :=
  removeAllF p0 ps s.length s

/-- First occurrence split: returns `(before, after)` around the first
occurrence of the non-empty pattern `p0 :: ps`, or `none`. -/
def splitFirst (p0 : Char) (ps : Str) : Str → Option (Str × Str)
  | [] => none
  | c :: rest =>
      if (p0 :: ps).isPrefixOf (c :: rest) then
        some ([], rest.drop ps.length)
      else
        (splitFirst p0 ps rest).map fun pr => (c :: pr.1, pr.2)

/-- Fuel-indexed worker for `splitAllStr` (structural recursion on the
fuel). -/
def splitAllStrF (p0 : Char) (ps : Str) : Nat → Str → List Str
  | _, [] => [[]]
  | 0, s => [s]
  | n + 1, c :: rest =>
      if (p0 :: ps).isPrefixOf (c :: rest) then
        [] :: splitAllStrF p0 ps n (rest.drop ps.length)
      else
        match splitAllStrF p0 ps n rest with
        | [] => [[c]]
        | h :: t => (c :: h) :: t

/-- Python `s.split(pat)` for a non-empty string pattern `p0 :: ps`. -/
def splitAllStr (p0 : Char) (ps : Str) (s : Str) : List Str :=
  splitAllStrF p0 ps s.length s

/-- Python set: insert keeping first-insertion order, no duplicates. -/
def setInsert [DecidableEq α] (acc : List α) (x : α) : List α :=
  if x ∈ acc then acc else acc ++ [x]

/-- The underlying element list of a Python set built by inserting the
elements of `l` in order (first occurrence kept). -/
def setOfList [DecidableEq α] (l : List α) : List α :=
  l.foldl setInsert []

/-- Lexicographic boolean comparison of strings (used to model `sorted`). -/
def strLe : Str → Str → Bool
  | [], _ => true
  | _ :: _, [] => false
  | a :: as, b :: bs => if a = b then strLe as bs else decide (a < b)

/-- Insert into a sorted list (insertion sort step). -/
def insortStr (x : Str) : List Str → List Str
  | [] => [x]
  | h :: t => if strLe x h then x :: h :: t else h :: insortStr x t

/-- Python `sorted` on a list of strings (insertion sort by lexicographic
order; a deterministic correct sort, as `sorted` is). -/
def sortStrs (l : List Str) : List Str := l.foldr insortStr []

def isSchemeChar (c : Char) : Bool :=
  c.isAlphanum || c == '+' || c == '-' || c == '.'

/-- Does the string begin with a `scheme:` part, as `urlparse`/`urljoin`
recognize it (letter first, scheme characters, then a colon)? -/
def hasScheme (s : Str) : Bool :=
  let pre := s.takeWhile (· ≠ ':')
  s.contains ':' && !pre.isEmpty &&
    (match pre with
     | c :: _ => c.isAlpha
     | [] => false) &&
    pre.all isSchemeChar

/-- Split an absolute URL at the first `://`. -/
def schemeSplit (s : Str) : Option (Str × Str) :=
  splitFirst ':' "//".toList s

/-- Is `c` a character that ends the network-location part of a URL? -/
def isNetlocEnd (c : Char) : Bool := c == '/' || c == '?' || c == '#'

/-- Is `c` a character that ends the path part of a URL? -/
def isPathEnd (c : Char) : Bool := c == '?' || c == '#'

/-- `urlparse(u).netloc` (for URLs without user-info/port subtleties, which
the pipeline never produces). -/
def netlocOf (u : Str) : Str :=
  match schemeSplit u with
  | some (_, rest) => rest.takeWhile fun c => !isNetlocEnd c
  | none => []

/-- `urlparse(u).path`. -/
def pathOf (u : Str) : Str :=
  match schemeSplit u with
  | some (_, rest) =>
      (rest.dropWhile fun c => !isNetlocEnd c).takeWhile fun c => !isPathEnd c
  | none =>
      if hasScheme u then
        ((u.dropWhile (· ≠ ':')).drop 1).takeWhile fun c => !isPathEnd c
      else
        u.takeWhile fun c => !isPathEnd c

/-- Scheme part of an absolute URL. -/
def schemeOf (u : Str) : Str :=
  match schemeSplit u with
  | some (sch, _) => sch
  | none => []

/-- `scheme://netloc` of an absolute URL. -/
def schemeRootOf (u : Str) : Str :=
  schemeOf u ++ "://".toList ++ netlocOf u

/-- Path prefix up to (excluding) the last `/`; empty if there is none. -/
def dirnameOf (p : Str) : Str :=
  ((p.reverse.dropWhile (· ≠ '/')).drop 1).reverse

/-- `urllib.parse.urljoin(base, href)` on the href shapes reaching it in this
code base: hrefs that carry their own scheme are returned unchanged,
protocol-relative hrefs adopt the base scheme, root-relative hrefs replace the
base path, and other relative hrefs replace the last path segment. -/
def urljoin (base href : Str) : Str :=
  if hasScheme href then href
  else if "//".toList.isPrefixOf href then schemeOf base ++ [':'] ++ href
  else if "/".toList.isPrefixOf href then schemeRootOf base ++ href
  else schemeRootOf base ++ dirnameOf (pathOf base) ++ ['/'] ++ href

def priorityPatternsWS : List Str :=
  ["about", "about-us", "company", "who-we-are", "our-story", "our-team",
   "services", "products", "solutions", "what-we-do", "offerings",
   "team", "leadership", "management", "founders", "executives",
   "contact", "contact-us", "get-in-touch",
   "careers", "jobs", "culture", "values",
   "testimonials", "case-studies", "clients", "customers"].map String.toList

/-- Priority path patterns of `scrapetest.py` (lines 179-188). -/
def priorityPatternsST : List Str :=
  ["about", "about-us", "company", "who-we-are", "our-story", "our-team",
   "services", "products", "solutions", "what-we-do", "offerings",
   "team", "leadership", "management", "founders", "executives",
   "contact", "contact-us", "get-in-touch",
   "careers", "jobs", "culture", "values",
   "testimonials", "case-studies", "clients", "customers",
   "partners", "investors", "board",
   "news", "press", "media", "blog"].map String.toList

/-- The keyword test of `tools/web_scraper.py` lines 52-53: the lower-cased
`/`-stripped path of the resolved URL contains some priority pattern. -/
def wsKeyword (full : Str) : Bool :=
  priorityPatternsWS.any fun p => strContains (pyStripSlash (pyLower (pathOf full))) p

/-- Keep a resolved URL iff it passes the keyword test (`web_scraper.py`). -/
def keepIfKeywordWS (full : Str) : Option Str :=
  if wsKeyword full then some full else none

/-- Per-href body of the `tools/web_scraper.py` discovery loop (lines 33-54):
skip empty/`mailto:`/`tel:`/`javascript:`/`#` hrefs, resolve to absolute form,
reject absolute hrefs with a different netloc, and keep the resolved URL iff
its lower-cased `/`-stripped path contains a priority pattern. -/
def resolveWS (base : Str) (href0 : Str) : Option Str :=
  if (pyStrip href0).isEmpty then none
  else if "mailto:".toList.isPrefixOf (pyStrip href0) ||
      "tel:".toList.isPrefixOf (pyStrip href0) ||
      "javascript:".toList.isPrefixOf (pyStrip href0) ||
      "#".toList.isPrefixOf (pyStrip href0) then none
  else if "/".toList.isPrefixOf (pyStrip href0) then
    keepIfKeywordWS (urljoin base (pyStrip href0))
  else if "http://".toList.isPrefixOf (pyStrip href0) ||
      "https://".toList.isPrefixOf (pyStrip href0) then
    if netlocOf (pyStrip href0) ≠ netlocOf base then none
    else keepIfKeywordWS (pyStrip href0)
  else keepIfKeywordWS (urljoin base (pyStrip href0))

/-- The `internal_links` set of `tools/web_scraper.py` as its underlying
insertion-ordered element list. -/
def candidatesWS (hrefs : List Str) (base : Str) : List Str :=
  setOfList (hrefs.filterMap (resolveWS base))

/-- `WebScraper.discover_internal_links` (lines 16-56): accumulate matching
links in a `set`, then `list(internal_links)[:10]`.  `enum` is the
(unspecified, hash-dependent) enumeration CPython uses for `list(s)`. -/
def discoverWS (enum : List Str → List Str) (hrefs : List Str) (base : Str) :
    List Str :=
  (enum (candidatesWS hrefs base)).take 10

/-- The keyword test of `scrapetest.py` lines 211-215: the lower-cased path of
the resolved URL contains some priority pattern. -/
def stKeyword (full : Str) : Bool :=
  priorityPatternsST.any fun p => strContains (pyLower (pathOf full)) p

/-- Keep a resolved URL iff it passes the keyword test (`scrapetest.py`). -/
def keepIfKeywordST (full : Str) : Option Str :=
  if stKeyword full then some full else none

/-- Per-href body of the `scrapetest.py` discovery loop (lines 193-215): skip
empty/`#`/`mailto:`/`tel:` hrefs (note: `javascript:` is not skipped here),
treat an href starting with `http` as external only when the base URL is not a
substring of it, and keep the resolved URL iff it passes the keyword test. -/
def resolveST (base : Str) (href0 : Str) : Option Str :=
  if (pyStrip href0).isEmpty then none
  else if "#".toList.isPrefixOf (pyStrip href0) ||
      "mailto:".toList.isPrefixOf (pyStrip href0) ||
      "tel:".toList.isPrefixOf (pyStrip href0) then none
  else if "/".toList.isPrefixOf (pyStrip href0) then
    keepIfKeywordST (urljoin base (pyStrip href0))
  else if "http".toList.isPrefixOf (pyStrip href0) &&
      !strContains (pyStrip href0) base then none
  else if !("http".toList.isPrefixOf (pyStrip href0)) then
    keepIfKeywordST (urljoin base (pyStrip href0))
  else keepIfKeywordST (pyStrip href0)

/-- The `internal_links` set of `scrapetest.py` as its underlying
insertion-ordered element list. -/
def candidatesST (hrefs : List Str) (base : Str) : List Str :=
  setOfList (hrefs.filterMap (resolveST base))

/-- `discover_internal_links` of `scrapetest.py` (lines 174-218):
`list(internal_links)[:8]`. -/
def discoverST (enum : List Str → List Str) (hrefs : List Str) (base : Str) :
    List Str :=
  (enum (candidatesST hrefs base)).take 8

/-- Well-formedness of a base URL `scheme://host` + optional absolute path,
the shape `scrape_website` / `scrape_company_website` are called with. -/
abbrev WfBase (scheme host path0 base : Str) : Prop :=
  base = scheme ++ "://".toList ++ host ++ path0 ∧
  scheme ≠ [] ∧ (∀ c ∈ scheme, c.isAlpha = true) ∧
  host ≠ [] ∧ (∀ c ∈ host, isNetlocEnd c = false) ∧
  (path0 = [] ∨ path0.head? = some '/')

/-- Hrefs for which `web_scraper.py` link discovery is host-preserving:
not protocol-relative, and scheme-qualified only in `http(s)://` form. -/
abbrev GoodWS (s : Str) : Prop :=
  "//".toList.isPrefixOf s = false ∧
  (hasScheme s = true →
    ("http://".toList.isPrefixOf s || "https://".toList.isPrefixOf s) = true)

/-- Hrefs for which `scrapetest.py` link discovery is host-preserving:
not protocol-relative, scheme-qualified only in `http...` form, and, when the
href passes the substring-based external-link test, actually on `host`. -/
abbrev GoodST (base host s : Str) : Prop :=
  "//".toList.isPrefixOf s = false ∧
  (hasScheme s = true → "http".toList.isPrefixOf s = true) ∧
  ("http".toList.isPrefixOf s = true → strContains s base = true →
    netlocOf s = host)

inductive HttpOutcome where
  | ok (status : Nat) (text : Str)
  | exc (msg : Str)

deriving DecidableEq

/-- The per-page result dict both fetch functions return. -/
structure FetchResult where
  url : Str
  html : Option Str
  status_code : Option Nat
  success : Bool
  error : Option Str

deriving DecidableEq

/-- `ScraperAPIClient.scrape_url` (`scraperapi_client.py` lines 26-61): one
`requests.get`; `success` iff the status code is exactly 200; on non-200 the
error carries `HTTP <code>`; on exception the error carries the exception
text.  No retry: exactly one `HttpOutcome` is consumed. -/
def scrapeUrl (resp : HttpOutcome) (url : Str) : FetchResult :=
  match resp with
  | .ok code text =>
      { url := url
        success := code == 200
        status_code := some code
        html := if code == 200 then some text else none
        error := if code == 200 then none else some ("HTTP ".toList ++ natStr code) }
  | .exc msg =>
      { url := url, success := false, status_code := none, html := none,
        error := some msg }

/-- `scrape_website_page` (`scrapetest.py` lines 220-263): same contract as
`scrape_url` (and the same status test, `== 200`). -/
def scrapeWebsitePage (resp : HttpOutcome) (url : Str) : FetchResult :=
  match resp with
  | .ok code text =>
      { url := url
        success := code == 200
        status_code := some code
        html := if code == 200 then some text else none
        error := if code == 200 then none else some ("HTTP ".toList ++ natStr code) }
  | .exc msg =>
      { url := url, success := false, status_code := none, html := none,
        error := some msg }

inductive JVal where
  | null
  | bool (b : Bool)
  | num (n : Int)
  | str (s : Str)
  | arr (xs : List JVal)
  | obj (fields : List (Str × JVal))

/-- Python truthiness on these values. -/
def truthy : JVal → Bool
  | .null => false
  | .bool b => b
  | .num n => n != 0
  | .str s => !s.isEmpty
  | .arr xs => !xs.isEmpty
  | .obj fs => !fs.isEmpty

/-- Python `d[k]`-style lookup on a dict (first matching key). -/
def dictLookup (fields : List (Str × JVal)) (k : Str) : Option JVal :=
  (fields.find? fun p => p.1 == k).map Prod.snd

/-- Python `d.get(k, dflt)`. -/
def dictGetD (fields : List (Str × JVal)) (k : Str) (dflt : JVal) : JVal :=
  (dictLookup fields k).getD dflt

/-- Python `k in d`. -/
def dictContains (fields : List (Str × JVal)) (k : Str) : Bool :=
  (dictLookup fields k).isSome

/-- Python `d[k] = v`: overwrite in place if the key exists, else append. -/
def dictSet (fields : List (Str × JVal)) (k : Str) (v : JVal) :
    List (Str × JVal) :=
  if dictContains fields k then
    fields.map fun p => if p.1 == k then (p.1, v) else p
  else fields ++ [(k, v)]

/-- Is the leaf the literal placeholder `"Not available"` or `"Not found"`
(Python `value != "Not available"` is `False` only for that exact string)? -/
def isPlaceholder (v : JVal) : Bool :=
  match v with
  | .str s => s == "Not available".toList || s == "Not found".toList
  | _ => false

/-- A leaf counts as filled when it is truthy and not a placeholder
(`scraper_agent.py` line 151). -/
def filledLeaf (v : JVal) : Bool := truthy v && !isPlaceholder v

/-- Total number of leaves: one per value of every dict-valued section
(`scraper_agent.py` lines 147-150). -/
def totalLeaves (fields : List (Str × JVal)) : Nat :=
  (fields.map fun p =>
    match p.2 with
    | .obj sect => sect.length
    | _ => 0).sum

/-- Number of filled leaves (`scraper_agent.py` lines 147-152). -/
def availLeaves (fields : List (Str × JVal)) : Nat :=
  (fields.map fun p =>
    match p.2 with
    | .obj sect => (sect.filter fun q => filledLeaf q.2).length
    | _ => 0).sum

/-- `completion_rate` (`scraper_agent.py` line 154), in exact rationals. -/
def completionRate (fields : List (Str × JVal)) : ℚ :=
  if totalLeaves fields > 0 then
    (availLeaves fields : ℚ) / (totalLeaves fields : ℚ)
  else 0

deriving instance DecidableEq for Except

/-- The human-readable message of the validate result, by branch (the Python
code formats these as f-strings; only the branch and the embedded rate are
semantically relevant). -/
inductive ValidationMsg where
  | extractionFailed
  | missingSection (s : Str)
  | lowCompletion (rate : ℚ)
  | valid (rate : ℚ)

deriving DecidableEq

/-- The two mandatory sections (`scraper_agent.py` line 137). -/
def requiredSections : List Str :=
  ["company_snapshot".toList, "mission_vision_values".toList]

/-- `ScraperAgent.validate_extraction` (`scraper_agent.py` lines 131-159):
fail on falsy input or an `extraction_failed` flag; fail on a missing
mandatory section; else compute the completion rate over the leaves of all
dict-valued sections and fail below the 10 percent floor.  Calling `.get` on
a truthy non-dict raises, modelled by `Except.error`. -/
def validateExtraction (d : JVal) : Except Str (Bool × ValidationMsg) :=
  if !truthy d then .ok (false, .extractionFailed)
  else
    match d with
    | .obj fields =>
        if truthy (dictGetD fields "extraction_failed".toList .null) then
          .ok (false, .extractionFailed)
        else
          match requiredSections.find? (fun s => !dictContains fields s) with
          | some s => .ok (false, .missingSection s)
          | none =>
              if completionRate fields < 1/10 then
                .ok (false, .lowCompletion (completionRate fields))
              else .ok (true, .valid (completionRate fields))
    | _ => .error "AttributeError".toList

structure SoupView where
  mailtoHrefs : List Str
  contactTexts : List Str
  fullText : Str

/-- Exclusion fragments (`scrapetest.py` lines 340-344). -/
def excludePatternsEmail : List Str :=
  ["example.com", "test.com", "domain.com", "yoursite.com",
   "noreply", "no-reply", "donotreply", "support@example",
   "admin@example", "info@example", "contact@example"].map String.toList

/-- `mailto['href'].replace('mailto:', '').split('?')[0]`. -/
def mailtoEmail (href : Str) : Str :=
  (removeAll 'm' "ailto:".toList href).takeWhile (· ≠ '?')

/-- The `emails` set of `extract_emails_from_html` as its underlying
insertion-ordered list: `mailto:` hrefs first, then regex matches (`m` is the
`re.findall` email-pattern oracle) over the contact-selector texts, then over
the whole page text, each added lower-cased. -/
def emailsSet (m : Str → List Str) (v : SoupView) : List Str :=
  let s1 := v.mailtoHrefs.foldl (fun acc href =>
    if !(mailtoEmail href).isEmpty then setInsert acc (pyLower (mailtoEmail href))
    else acc) []
  let s2 := v.contactTexts.foldl (fun acc t =>
    (m t).foldl (fun acc2 e => setInsert acc2 (pyLower e)) acc) s1
  (m v.fullText).foldl (fun acc e => setInsert acc (pyLower e)) s2

/-- `extract_emails_from_html`: empty markup gives `[]`; otherwise collect
the email set and keep the entries containing no exclusion fragment. `enum`
is the set-iteration order of the final `for email in emails` loop. -/
def extractEmailsFromHtml (parse : Str → SoupView) (m : Str → List Str)
    (enum : List Str → List Str) (html : Str) : List Str :=
  if html.isEmpty then []
  else
    (enum (emailsSet m (parse html))).filter fun e =>
      !excludePatternsEmail.any fun p => strContains e p

def stripTagsF : Nat → Str → Str
  | _, [] => []
  | 0, s => s
  | n + 1, c :: rest =>
      if c = '<' then
        if !(rest.takeWhile (· ≠ '>')).isEmpty &&
            !(rest.dropWhile (· ≠ '>')).isEmpty then
          stripTagsF n ((rest.dropWhile (· ≠ '>')).drop 1)
        else c :: stripTagsF n rest
      else c :: stripTagsF n rest

/-- `re.sub(r'<[^>]+>', '', line)`. -/
def stripTags (s : Str) : Str := stripTagsF s.length s

/-- `', '.join(...)`. -/
def joinComma (parts : List Str) : Str := List.intercalate ", ".toList parts

/-- `'\n'.join(...)`. -/
def joinNewline (parts : List Str) : Str := List.intercalate ['\n'] parts

/-- The oracle bundle `combine_page_content` consumes: the `BeautifulSoup`
view used by email extraction, the two `re.findall` email patterns, the
`clean_html_content` cleaner (its internals are irrelevant to the aggregation
bounds, which hold for any cleaner), and the set-enumeration order. -/
structure CombineOracles where
  parse : Str → SoupView
  emailRegexA : Str → List Str
  emailRegexC : Str → List Str
  cleanFn : Str → Str
  setEnum : List Str → List Str

/-- `location_keywords` (`scrapetest.py` line 449). -/
def locationKeywords : List Str :=
  ["town", "city", "country", "address", "street", "avenue", "road"].map
    String.toList

/-- The per-page `CRITICAL` email hint (`scrapetest.py` lines 442-446). -/
def criticalHint (emailRegexC : Str → List Str) (html : Str) : List Str :=
  if !(emailRegexC html).isEmpty then
    ["🚨 CRITICAL: Emails found in HTML: ".toList ++
      joinComma ((emailRegexC html).take 2)]
  else []

/-- The per-page `LOCATION CONTEXT` hints (`scrapetest.py` lines 448-459):
for each location keyword present in the lower-cased markup, the first line
containing the keyword whose stripped form exceeds 10 characters and whose
tag-stripped form is non-empty and exceeds 5 characters contributes one hint
capped at 100 characters. -/
def locationHints (html : Str) : List Str :=
  locationKeywords.foldl (fun acc kw =>
    if strContains (pyLower html) kw then
      match (html.splitOn '\n').find? (fun line =>
          strContains (pyLower line) kw &&
          decide ((pyStrip line).length > 10) &&
          !(pyStrip (stripTags line)).isEmpty &&
          decide ((pyStrip (stripTags line)).length > 5)) with
      | some line =>
          acc ++ ["🚨 LOCATION CONTEXT: ".toList ++
            (pyStrip (stripTags line)).take 100]
      | none => acc
    else acc) []

/-- Page classification by URL path (`scrapetest.py` lines 461-474). -/
def pageTypeOf (url : Str) : Str :=
  let p := pyLower (pathOf url)
  if p = ['/'] ∨ p = [] then "HOMEPAGE".toList
  else if (["about", "company", "who-we-are"].map String.toList).any
      (fun x => strContains p x) then "ABOUT".toList
  else if (["service", "product", "solution", "offering"].map String.toList).any
      (fun x => strContains p x) then "SERVICES".toList
  else if (["team", "leadership", "management"].map String.toList).any
      (fun x => strContains p x) then "TEAM".toList
  else if strContains p "contact".toList then "CONTACT".toList
  else "OTHER".toList

/-- The cleaned-text contribution of one page to the aggregate: the hard
2000-character cap of `clean_text[:2000]` (`scrapetest.py` line 480). -/
def truncClean (cleanFn : Str → Str) (html : Str) : Str :=
  (cleanFn html).take 2000

/-- One iteration of the `combine_page_content` page loop, threading the
`(combined_content, all_emails, contact_hints)` state. -/
def combineStep (O : CombineOracles) (st : Str × List Str × List Str)
    (entry : Str × FetchResult) : Str × List Str × List Str :=
  if !entry.2.success then st
  else
    let html := entry.2.html.getD []
    let allEmails2 :=
      (extractEmailsFromHtml O.parse O.emailRegexA O.setEnum html).foldl
        setInsert st.2.1
    let hints2 := st.2.2 ++ criticalHint O.emailRegexC html ++ locationHints html
    let content2 :=
      if !(O.cleanFn html).isEmpty then
        st.1 ++ "\n\n=== ".toList ++ pageTypeOf entry.1 ++ " PAGE (".toList ++
          entry.1 ++ ") ===\n".toList ++ truncClean O.cleanFn html ++
          "...\n".toList
      else st.1
    (content2, allEmails2, hints2)

/-- `unique_hints = list(set(contact_hints))[:5]` (`scrapetest.py` line 488). -/
def uniqueHints (enum : List Str → List Str) (hints : List Str) : List Str :=
  (enum (setOfList hints)).take 5

/-- `combine_page_content` (`scrapetest.py` lines 424-491). -/
def combinePageContent (O : CombineOracles)
    (pages : List (Str × FetchResult)) : Str :=
  let st := pages.foldl (combineStep O) ([], [], [])
  let content2 :=
    if !st.2.1.isEmpty then
      st.1 ++ "\n\nEXTRACTED_EMAILS: ".toList ++ joinComma (sortStrs st.2.1) ++
        ['\n']
    else st.1
  if !st.2.2.isEmpty then
    "\n🚨 SMART CONTACT DETECTION:\n".toList ++
      joinNewline (uniqueHints O.setEnum st.2.2) ++ "\n\n".toList ++ content2
  else content2

structure RegexOracles where
  emailsA : Str → List Str
  emailsB : Str → List Str
  phoneUS : Str → List Str
  phoneIntl : Str → List Str
  addr1 : Str → List Str
  addr2 : Str → List Str
  linkedin : Str → List Str
  twitter : Str → List Str
  facebook : Str → List Str
  instagram : Str → List Str
  youtube : Str → List Str
  clients1 : Str → List Str
  clients2 : Str → List Str
  clients3 : Str → List Str

/-- A regex oracle that never matches (used for concrete instantiations). -/
def noMatches : Str → List Str := fun _ => []

/-- The all-silent regex oracle bundle. -/
def emptyRegexOracles : RegexOracles :=
  { emailsA := noMatches, emailsB := noMatches, phoneUS := noMatches
    phoneIntl := noMatches, addr1 := noMatches, addr2 := noMatches
    linkedin := noMatches, twitter := noMatches, facebook := noMatches
    instagram := noMatches, youtube := noMatches, clients1 := noMatches
    clients2 := noMatches, clients3 := noMatches }

/-- A regex oracle bundle whose first email pattern returns `es`. -/
def onlyEmailOracles (es : List Str) : RegexOracles :=
  { emptyRegexOracles with emailsA := fun _ => es }

/-- Fuel-indexed worker splitting on maximal runs of characters satisfying
`p`, modelling `re.split(r'[.!?]+', s)`. -/
def splitRunsF (p : Char → Bool) : Nat → Str → Str → List Str
  | _, cur, [] => [cur.reverse]
  | 0, cur, rest => [cur.reverse ++ rest]
  | n + 1, cur, c :: rest =>
      if p c then cur.reverse :: splitRunsF p n [] (rest.dropWhile p)
      else splitRunsF p n (c :: cur) rest

/-- `re.split(r'[.!?]+', s)`. -/
def splitSentences (s : Str) : List Str :=
  splitRunsF (fun c => c == '.' || c == '!' || c == '?') s.length [] s

/-- `content.split("EXTRACTED_EMAILS:")[1].split("\n")[0]`, guarded by the
containment test (`scrapetest.py` lines 587-588). -/
def extractedEmailsSection (content : Str) : Option Str :=
  if strContains content "EXTRACTED_EMAILS:".toList then
    match splitAllStr 'E' "XTRACTED_EMAILS:".toList content with
    | _ :: second :: _ => some ((second.splitOn '\n').headD [])
    | _ => none
  else none

/-- `exclude_terms` of the business-email fallback (`scrapetest.py` line 607). -/
def excludeTermsBiz : List Str :=
  ["noreply", "no-reply", "donotreply", "example.com", "test.com"].map
    String.toList

/-- Prioritized business prefixes (`scrapetest.py` line 613). -/
def bizPrio : List Str :=
  ["info@", "contact@", "hello@", "support@", "sales@"].map String.toList

/-- First phase of the email fallback (`scrapetest.py` lines 586-591): take
the first entry of the `EXTRACTED_EMAILS` section of the aggregate when that
marker is present. -/
def emailStepSection (content : Str) (ci : List (Str × JVal)) :
    List (Str × JVal) :=
  match extractedEmailsSection content with
  | some sect =>
      match (sect.splitOn ',').map pyStrip with
      | first :: _ =>
          if !first.isEmpty then dictSet ci "email".toList (.str first)
          else ci
      | [] => ci
  | none => ci

/-- The prioritized business-email list (`scrapetest.py` lines 600-617). -/
def businessEmails (R : RegexOracles) (enum : List Str → List Str)
    (content : Str) : List Str :=
  (enum (setOfList (R.emailsA content ++ R.emailsB content))).foldl
    (fun acc em =>
      if !(excludeTermsBiz.any fun t => strContains (pyLower em) t) then
        if bizPrio.any (fun t => strContains (pyLower em) t) then
          pyLower em :: acc
        else acc ++ [pyLower em]
      else acc) []

/-- Second phase of the email fallback (`scrapetest.py` lines 593-619). -/
def emailStepRegex (R : RegexOracles) (enum : List Str → List Str)
    (content : Str) (ci1 : List (Str × JVal)) : List (Str × JVal) :=
  if truthy (dictGetD ci1 "email".toList .null) then ci1
  else
    match businessEmails R enum content with
    | e :: _ => dictSet ci1 "email".toList (.str e)
    | [] => ci1

/-- Email fallback on `contact_info` (`scrapetest.py` lines 584-619): only
when the model left `email` falsy; first the `EXTRACTED_EMAILS` section of
the aggregate, then the two-pattern regex union with business-prefix
prioritization.  `enum` is the iteration order over the `all_emails` set. -/
def emailStep (R : RegexOracles) (enum : List Str → List Str) (content : Str)
    (ci : List (Str × JVal)) : List (Str × JVal) :=
  if truthy (dictGetD ci "email".toList .null) then ci
  else emailStepRegex R enum content (emailStepSection content ci)

/-- Phone fallback (`scrapetest.py` lines 621-631): US pattern first, then
the loose international pattern, first match wins. -/
def phoneStep (R : RegexOracles) (content : Str) (ci : List (Str × JVal)) :
    List (Str × JVal) :=
  if truthy (dictGetD ci "phone".toList .null) then ci
  else
    match R.phoneUS content with
    | p :: _ => dictSet ci "phone".toList (.str p)
    | [] =>
        match R.phoneIntl content with
        | p :: _ => dictSet ci "phone".toList (.str p)
        | [] => ci

/-- Address fallback (`scrapetest.py` lines 633-643). -/
def addrStep (R : RegexOracles) (content : Str) (ci : List (Str × JVal)) :
    List (Str × JVal) :=
  if truthy (dictGetD ci "address".toList .null) then ci
  else
    match R.addr1 content with
    | a :: _ => dictSet ci "address".toList (.str a)
    | [] =>
        match R.addr2 content with
        | a :: _ => dictSet ci "address".toList (.str a)
        | [] => ci

/-- Social-media fallback (`scrapetest.py` lines 645-661): first match per
platform, materialized as an `https://` URL, in the literal dict order. -/
def socialStep (R : RegexOracles) (content : Str) (ci : List (Str × JVal)) :
    List (Str × JVal) :=
  if truthy (dictGetD ci "social_media".toList .null) then ci
  else
    let sm :=
      ([("linkedin".toList, R.linkedin), ("twitter".toList, R.twitter),
        ("facebook".toList, R.facebook), ("instagram".toList, R.instagram),
        ("youtube".toList, R.youtube)] : List (Str × (Str → List Str))).foldl
        (fun acc pf =>
          match pf.2 content with
          | u :: _ => acc ++ [(pf.1, JVal.str ("https://".toList ++ u))]
          | [] => acc) []
    if !sm.isEmpty then dictSet ci "social_media".toList (.obj sm) else ci

/-- `testimonial_indicators` (`scrapetest.py` lines 669-673). -/
def testimonialIndicators : List Str :=
  ["testimonial", "review", "client says", "customer feedback",
   "trusted by", "clients include", "working with", "case study",
   "success story", "\"", "rating", "stars", "recommended"].map String.toList

/-- The collected testimonial sentences (`scrapetest.py` lines 675-684): for
each indicator present in the lower-cased aggregate, every sentence
containing it whose stripped form exceeds 20 characters, stripped, in
indicator-then-sentence order (duplicates possible). -/
def testimonialContent (content : Str) : List Str :=
  testimonialIndicators.foldl (fun acc ind =>
    if strContains (pyLower content) ind then
      acc ++ ((splitSentences content).filter fun sent =>
        strContains (pyLower sent) ind &&
          decide ((pyStrip sent).length > 20)).map pyStrip
    else acc) []

/-- Testimonials fallback on `social_proof` (`scrapetest.py` lines 686-687):
cap to the top 3, only when the model left `testimonials` falsy. -/
def testimonialStep (content : Str) (sp : List (Str × JVal)) :
    List (Str × JVal) :=
  if !(testimonialContent content).isEmpty &&
      !truthy (dictGetD sp "testimonials".toList .null) then
    dictSet sp "testimonials".toList
      (.arr (((testimonialContent content).take 3).map .str))
  else sp

/-- Client-mention fallback (`scrapetest.py` lines 689-702): the three
capture patterns in order, capped to 5 names, only when `case_studies` is
falsy. -/
def clientStep (R : RegexOracles) (content : Str) (sp : List (Str × JVal)) :
    List (Str × JVal) :=
  let mentions := R.clients1 content ++ R.clients2 content ++ R.clients3 content
  if !mentions.isEmpty && !truthy (dictGetD sp "case_studies".toList .null) then
    dictSet sp "case_studies".toList
      (.arr [.str ("Mentioned clients: ".toList ++ joinComma (mentions.take 5))])
  else sp

/-- The full post-parse fallback pass of `extract_company_data_with_gpt`
(`scrapetest.py` lines 581-704): read `contact_info` (default `{}`), run the
four contact fallbacks, write the result back under `contact_info`; read
`social_proof` (default `{}`), run the two social-proof fallbacks, write the
result back under `social_proof`.  A non-dict under either key raises
(`.get` on it below) — modelled as `none`, which the enclosing `except`
turns into a `None` result. -/
def enrichProfile (R : RegexOracles) (enum : List Str → List Str)
    (content : Str) (parsed : List (Str × JVal)) :
    Option (List (Str × JVal)) :=
  match dictGetD parsed "contact_info".toList (.obj []) with
  | .obj ci0 =>
      let ci := socialStep R content (addrStep R content
        (phoneStep R content (emailStep R enum content ci0)))
      let d1 := dictSet parsed "contact_info".toList (.obj ci)
      match dictGetD d1 "social_proof".toList (.obj []) with
      | .obj sp0 =>
          let sp := clientStep R content (testimonialStep content sp0)
          some (dictSet d1 "social_proof".toList (.obj sp))
      | _ => none
  | _ => none

/-- `l[:-n]` for the code-fence suffix. -/
def dropLastN (l : Str) (n : Nat) : Str := l.take (l.length - n)

/-- `extract_company_data_with_gpt` (`scrapetest.py` lines 550-715), after
the prompt has been sent: the second component counts chat-completion
invocations (the `openai.chat.completions.create` call is made exactly once,
unconditionally, before any of the response handling).  The LLM reply and
`json.loads` are oracles; any exception path (transport error, JSON decode
error, `.get` on a non-dict) returns `None` as the source does. -/
def extractCompanyDataWithGpt (R : RegexOracles) (enum : List Str → List Str)
    (llm : Except Str Str) (jsonParse : Str → Option JVal) (content : Str) :
    Option JVal × Nat :=
  match llm with
  | .error _ => (none, 1)
  | .ok raw =>
      let stripped := pyStrip raw
      let txt :=
        if "```json".toList.isPrefixOf stripped then
          dropLastN (stripped.drop 7) 3
        else if "```".toList.isPrefixOf stripped then
          dropLastN (stripped.drop 3) 3
        else stripped
      match jsonParse txt with
      | none => (none, 1)
      | some (.obj fields) =>
          match enrichProfile R enum content fields with
          | some res => (some (.obj res), 1)
          | none => (none, 1)
      | some _ => (none, 1)

/-- `load_extraction_template` (`scrapetest.py` lines 46-172): the fixed
nested section → field → description mapping. -/
def loadExtractionTemplate : List (Str × List (Str × Str)) :=
  ([("cover_page",
     [("company_name", "Official company name"),
      ("tagline_slogan", "Main tagline or slogan"),
      ("logo_url", "URL to company logo"),
      ("date_of_issue", "Date of profile creation")]),
    ("company_snapshot",
     [("founded", "Year company was founded"),
      ("headquarters", "Location of headquarters with full address"),
      ("legal_structure", "Company legal structure (LLC, Corp, etc.)"),
      ("number_of_employees", "Employee count or size range"),
      ("annual_revenue_funding", "Revenue figures or funding amounts"),
      ("website", "Official website URL"),
      ("industries_sectors", "Primary and secondary industry sectors")]),
    ("mission_vision_values",
     [("mission_statement", "What the company exists to achieve"),
      ("vision_statement", "Long-term aspirational goal"),
      ("core_values", "List of company core values with descriptions")]),
    ("history_milestones",
     [("key_milestones", "List of significant company milestones with years"),
      ("founding_story", "How and why the company was started"),
      ("major_achievements", "Notable achievements and growth markers")]),
    ("leadership_governance",
     [("executive_team", "C-level executives with roles and brief bios"),
      ("board_directors_advisors", "Board members and key advisors"),
      ("founders", "Company founders and their backgrounds")]),
    ("products_solutions",
     [("product_portfolio", "Detailed list of products with descriptions"),
      ("launch_years", "When key products were launched"),
      ("key_features", "Competitive advantages of each product"),
      ("pricing_models", "How products are priced"),
      ("product_roadmap", "Future product development plans")]),
    ("services",
     [("service_offerings", "Detailed service descriptions"),
      ("methodology_delivery", "How services are delivered"),
      ("engagement_models", "Different ways clients can engage"),
      ("pricing_structure", "Service pricing and engagement terms"),
      ("success_metrics", "KPIs and success measurements")]),
    ("markets_customers",
     [("target_segments", "Detailed customer personas and segments"),
      ("geographical_markets", "Countries and regions served"),
      ("key_clients", "Notable clients and customer logos"),
      ("testimonials_case_studies",
        "Customer success stories and testimonials")]),
    ("value_proposition",
     [("unique_selling_points", "What makes the company unique"),
      ("competitive_differentiators", "How they differ from competitors"),
      ("proof_points", "Data, awards, and validation of claims")]),
    ("operating_locations",
     [("countries_of_operation", "All countries where company operates"),
      ("offices_facilities", "Physical locations with addresses"),
      ("remote_work_policy", "Remote and hybrid work arrangements")]),
    ("key_metrics_performance",
     [("growth_metrics", "Year-over-year growth percentages"),
      ("market_share", "Position in the market"),
      ("customer_satisfaction", "NPS, CSAT, and other satisfaction metrics"),
      ("retention_churn", "Customer retention and churn rates"),
      ("other_kpis", "Business-specific key performance indicators")]),
    ("financial_highlights",
     [("revenue_trends", "Revenue growth over recent years"),
      ("profitability", "Profit margins and financial health"),
      ("funding_rounds", "Investment rounds and funding history"),
      ("investors", "Key investors and investment partners")]),
    ("certifications_compliance",
     [("standards_certifications",
        "ISO, SOC 2, PCI-DSS, and other certifications"),
      ("regulatory_approvals", "Industry-specific regulatory compliance"),
      ("security_privacy", "Security and privacy policies and measures")]),
    ("partnerships_alliances",
     [("technology_partners", "Key technology and integration partners"),
      ("channel_partners", "Distribution and channel partnerships"),
      ("strategic_alliances", "Strategic business partnerships")]),
    ("awards_recognition",
     [("industry_awards", "Awards received with years and issuers"),
      ("recognition", "Media recognition and industry acknowledgments"),
      ("rankings", "Industry rankings and analyst recognition")]),
    ("csr_sustainability",
     [("environmental_initiatives",
        "Environmental and sustainability programs"),
      ("social_impact", "Community and social impact programs"),
      ("esg_governance", "ESG scores and governance practices")]),
    ("technology_innovation",
     [("rd_focus", "Research and development focus areas"),
      ("patents_ip", "Patents and intellectual property portfolio"),
      ("technology_stack", "Technology platforms and infrastructure"),
      ("innovation_programs", "Innovation labs and development programs")]),
    ("risk_management",
     [("key_risks", "Major business risks and mitigation strategies"),
      ("governance_framework", "Corporate governance structure"),
      ("compliance_programs", "Compliance and risk management programs")]),
    ("media_public_relations",
     [("press_releases", "Recent press releases and announcements"),
      ("media_coverage", "Notable media coverage and mentions"),
      ("thought_leadership",
        "White papers, blogs, and thought leadership content")]),
    ("culture_career",
     [("employer_value_proposition",
        "What makes the company a great place to work"),
      ("diversity_inclusion", "D&I initiatives and commitments"),
      ("learning_development",
        "Employee development and training programs"),
      ("open_positions", "Current job openings and career opportunities")]),
    ("contact_information",
     [("registered_address", "Official business address"),
      ("phone_numbers", "Primary phone and departmental numbers"),
      ("email_addresses", "General and departmental email addresses"),
      ("social_media_handles", "Social media accounts and handles"),
      ("investor_media_contacts",
        "Specific contacts for investors and media")])] :
    List (String × List (String × String))).map
      fun sec => (sec.1.toList, sec.2.map fun f => (f.1.toList, f.2.toList))

structure ScrapingResult where
  success : Bool
  base_url : Str
  pages_scraped : List (Str × FetchResult)
  error : Option Str
  internal_links : Option (List Str)
  success_rate : Option ℚ

/-- `WebScraper.scrape_website` (`web_scraper.py` lines 71-126): fetch the
homepage; on failure return immediately with `success=False`; else discover
internal links from the homepage markup (`anchorsOf` is the soup's anchor
list), fetch each under the key `page_<i>`, and report success iff at least
one page succeeded. -/
def scrapeWebsite (resp : Str → HttpOutcome) (anchorsOf : Str → List Str)
    (enum : List Str → List Str) (base : Str) : ScrapingResult :=
  let hp := scrapeUrl (resp base) base
  if !hp.success then
    { success := false, base_url := base,
      pages_scraped := [("homepage".toList, hp)],
      error := some ("Failed to scrape homepage: ".toList ++ (hp.error.getD [])),
      internal_links := none, success_rate := none }
  else
    let links := discoverWS enum (anchorsOf (hp.html.getD [])) base
    let pages := [("homepage".toList, hp)] ++
      links.enum.map fun il =>
        ("page_".toList ++ natStr (il.1 + 1), scrapeUrl (resp il.2) il.2)
    let successful := (pages.filter fun p => p.2.success).length
    { success := decide (0 < successful), base_url := base,
      pages_scraped := pages, error := none, internal_links := some links,
      success_rate :=
        some (if pages.length > 0 then
          (successful : ℚ) / (pages.length : ℚ) else 0) }

/-- `ScraperAgent._structure_text_response` (`scraper_agent.py` lines
99-129): pull company name / headquarters / founded via the three labeled
patterns (`re.search` capture oracles), fall back to a flagged raw record
when fewer than two matched. -/
def structureTextResponse (nameMatch hqMatch foundedMatch : Str → Option Str)
    (text : Str) : JVal :=
  let sd0 : List (Str × JVal) := []
  let sd1 := match nameMatch text with
    | some mv => sd0 ++ [("company_name".toList, JVal.str (pyStrip mv))]
    | none => sd0
  let sd2 := match hqMatch text with
    | some mv => sd1 ++ [("headquarters".toList, JVal.str (pyStrip mv))]
    | none => sd1
  let sd3 := match foundedMatch text with
    | some mv => sd2 ++ [("founded".toList, JVal.str (pyStrip mv))]
    | none => sd2
  if sd3.length < 2 then
    .obj [("extraction_method".toList, .str "text_fallback".toList),
      ("raw_response".toList, .str text),
      ("structured_data".toList, .obj sd3),
      ("note".toList, .str "Could not parse into full JSON structure".toList)]
  else .obj sd3

/-- Oracle bundle for one `ScrapeWorkflow.run`: the per-URL proxy responses,
the soup anchor lists, the set enumerations, the single LLM round trip, the
`json.loads` parser, the three `_structure_text_response` capture oracles,
the `HTMLCleaner` outputs (collaborator functions of the fetched pages; only
their results flow into these claims), and the database insert outcome. -/
structure WorkflowOracles where
  resp : Str → HttpOutcome
  anchorsOf : Str → List Str
  enum : List Str → List Str
  llm : Except Str Str
  jsonParse : Str → Option JVal
  nameMatch : Str → Option Str
  hqMatch : Str → Option Str
  foundedMatch : Str → Option Str
  cleanCombine : List (Str × FetchResult) → Str
  totalWords : List (Str × FetchResult) → Nat
  dbData : Except Str Bool

/-- `ScraperAgent.extract_company_data` (`scraper_agent.py` lines 19-67),
with the second component counting chat-completion invocations (exactly one
per call): a transport error becomes an `extraction_failed` record, a
non-JSON reply goes through `_structure_text_response`, a JSON reply is
returned as parsed. -/
def extractCompanyData (O : WorkflowOracles) (content : Str) : JVal × Nat :=
  match O.llm with
  | .error e =>
      (.obj [("error".toList, .str e), ("extraction_failed".toList, .bool true)],
        1)
  | .ok text =>
      match O.jsonParse text with
      | some v => (v, 1)
      | none => (structureTextResponse O.nameMatch O.hqMatch O.foundedMatch text, 1)

/-- `ScrapeWorkflow._save_to_database` (`scrape_workflow.py` lines 153-188):
catches every exception; reports `(success, error)`. -/
def saveToDatabase (O : WorkflowOracles) : Bool × Option Str :=
  match O.dbData with
  | .ok true => (true, none)
  | .ok false => (false, some "Database insert failed".toList)
  | .error e => (false, some e)

/-- The workflow-level result dict (the fields the claims are about). -/
structure RunResult where
  status : Str
  success : Bool
  error : Option Str
  extracted_data : Option JVal
  extraction_valid : Option Bool
  database_id : Bool
  database_error : Option Str

/-- `ScrapeWorkflow.run` (`scrape_workflow.py` lines 18-151), with the
second component counting chat-completion invocations: scrape (abort with
status `failed` if the scrape reports failure — in particular on homepage
failure), clean, extract, validate (a raising validation — `.get` on a
non-dict — is caught by the enclosing `try` and becomes status `failed`),
save (a database failure is recorded but the status still becomes
`completed`). -/
def runWorkflow (O : WorkflowOracles) (url : Str) : RunResult × Nat :=
  let scr := scrapeWebsite O.resp O.anchorsOf O.enum url
  if !scr.success then
    ({ status := "failed".toList, success := false,
       error := some (scr.error.getD "Scraping failed".toList),
       extracted_data := none, extraction_valid := none,
       database_id := false, database_error := none }, 0)
  else
    let cleaned := O.cleanCombine scr.pages_scraped
    let ec := extractCompanyData O cleaned
    match validateExtraction ec.1 with
    | .error e =>
        ({ status := "failed".toList, success := false, error := some e,
           extracted_data := none, extraction_valid := none,
           database_id := false, database_error := none }, ec.2)
    | .ok vr =>
        let db := saveToDatabase O
        ({ status := "completed".toList, success := true, error := none,
           extracted_data := some ec.1, extraction_valid := some vr.1,
           database_id := db.1, database_error := db.2 }, ec.2)

/-- `scrape_company_website` (`scrapetest.py` lines 265-301): homepage
first; on failure return just the homepage entry (the caller continues!);
else fetch discovered links until the page budget (counter starts at 1) is
reached. -/
def scrapeCompanyWebsite (resp : Str → HttpOutcome)
    (anchorsOf : Str → List Str) (enum : List Str → List Str) (base : Str)
    (maxPages : Nat) : List (Str × FetchResult) :=
  let hp := scrapeWebsitePage (resp base) base
  if !hp.success then [(base, hp)]
  else
    let links := discoverST enum (anchorsOf (hp.html.getD [])) base
    [(base, hp)] ++
      (links.take (maxPages - 1)).map fun l => (l, scrapeWebsitePage (resp l) l)

/-- Oracle bundle for the `scrapetest.py` `main` flow. -/
structure MainOracles where
  resp : Str → HttpOutcome
  anchorsOf : Str → List Str
  setEnum : List Str → List Str
  parse : Str → SoupView
  emailRegexC : Str → List Str
  cleanFn : Str → Str
  R : RegexOracles
  llm : Except Str Str
  jsonParse : Str → Option JVal

/-- The computational core of `main` in `scrapetest.py` (lines 749-836),
debug/file side effects omitted: scrape with `max_pages=4`, combine, and
then call `extract_company_data_with_gpt` — unconditionally, whether or not
the homepage fetch succeeded.  The second component counts chat-completion
invocations. -/
def scrapetestMain (O : MainOracles) (base : Str) : Option JVal × Nat :=
  let pages := scrapeCompanyWebsite O.resp O.anchorsOf O.setEnum base 4
  let combined := combinePageContent
    ⟨O.parse, O.R.emailsA, O.emailRegexC, O.cleanFn, O.setEnum⟩ pages
  extractCompanyDataWithGpt O.R O.setEnum O.llm O.jsonParse combined

/-! ## Theorems -/

theorem mem_foldl_setInsert [DecidableEq α] (l : List α) (acc : List α) (x : α) :
    x ∈ l.foldl setInsert acc ↔ x ∈ acc ∨ x ∈ l := by
  induction l generalizing acc with
  | nil => simp
  | cons a as ih =>
      simp only [List.foldl_cons, ih, setInsert]
      by_cases hx : a ∈ acc
      · rw [if_pos hx]
        constructor
        · rintro (h | h)
          · exact Or.inl h
          · exact Or.inr (List.mem_cons_of_mem _ h)
        · rintro (h | h)
          · exact Or.inl h
          · rcases List.mem_cons.mp h with h | h
            · exact Or.inl (h ▸ hx)
            · exact Or.inr h
      · rw [if_neg hx]
        simp only [List.mem_append, List.mem_singleton, List.mem_cons]
        tauto

theorem mem_setOfList [DecidableEq α] (l : List α) (x : α) :
    x ∈ setOfList l ↔ x ∈ l := by
  rw [setOfList, mem_foldl_setInsert]
  simp

theorem nodup_foldl_setInsert [DecidableEq α] (l : List α) (acc : List α)
    (h : acc.Nodup) : (l.foldl setInsert acc).Nodup := by
  induction l generalizing acc with
  | nil => exact h
  | cons a as ih =>
      simp only [List.foldl_cons]
      apply ih
      by_cases hx : a ∈ acc
      · rwa [setInsert, if_pos hx]
      · rw [setInsert, if_neg hx]
        exact List.Nodup.append h (List.nodup_singleton a) (by simpa using hx)

theorem nodup_setOfList [DecidableEq α] (l : List α) : (setOfList l).Nodup :=
  nodup_foldl_setInsert l [] List.nodup_nil

/-! ## Helper lemmas about the string model -/

theorem takeWhile_append_all (p : α → Bool) (xs ys : List α)
    (h : ∀ x ∈ xs, p x = true) :
    (xs ++ ys).takeWhile p = xs ++ ys.takeWhile p := by
  induction xs with
  | nil => simp
  | cons a as ih =>
      simp only [List.cons_append, List.takeWhile_cons, h a (by simp)]
      simp [ih fun x hx => h x (by simp [hx])]

theorem dropWhile_append_all (p : α → Bool) (xs ys : List α)
    (h : ∀ x ∈ xs, p x = true) :
    (xs ++ ys).dropWhile p = ys.dropWhile p := by
  induction xs with
  | nil => simp
  | cons a as ih =>
      simp only [List.cons_append, List.dropWhile_cons, h a (by simp)]
      simp [ih fun x hx => h x (by simp [hx])]

theorem takeWhile_head_false (p : α → Bool) (c : α) (t : List α)
    (h : p c = false) : (c :: t).takeWhile p = [] := by
  simp [List.takeWhile_cons, h]

theorem singleton_isPrefixOf [DecidableEq α] (a : α) (l : List α) :
    [a].isPrefixOf l = true ↔ l.head? = some a := by
  cases l with
  | nil => simp [List.isPrefixOf]
  | cons c t =>
      simp only [List.isPrefixOf, List.head?]
      constructor
      · intro h
        have : a = c := by simpa using h
        simp [this]
      · intro h
        have : c = a := by simpa using h
        simp [this]

theorem splitFirst_boundary (p0 : Char) (ps pre suf : Str)
    (h : ∀ c ∈ pre, c ≠ p0) :
    splitFirst p0 ps (pre ++ p0 :: ps ++ suf) = some (pre, suf) := by
  induction pre with
  | nil =>
      simp only [List.nil_append, splitFirst]
      rw [if_pos]
      · simp
      · exact List.isPrefixOf_iff_prefix.mpr (List.prefix_append _ _)
  | cons c cs ih =>
      show splitFirst p0 ps (c :: (cs ++ p0 :: ps ++ suf)) = _
      rw [splitFirst]
      rw [if_neg]
      · rw [ih fun x hx => h x (by simp [hx])]
        rfl
      · intro hcontra
        have hpre := List.isPrefixOf_iff_prefix.mp hcontra
        have : p0 = c := by
          rcases hpre with ⟨t, ht⟩
          exact (List.cons_eq_cons.mp ht).1
        exact h c (by simp) this.symm

theorem strColonSlashSlash : "://".toList = [':', '/', '/'] := rfl

theorem strSlashSlash : "//".toList = ['/', '/'] := rfl

theorem WfBase.scheme_ne_colon {scheme host path0 base : Str}
    (h : WfBase scheme host path0 base) : ∀ c ∈ scheme, c ≠ ':' := by
  intro c hc he
  have h1 := h.2.2.1 c hc
  rw [he] at h1
  exact absurd h1 (by decide)

theorem schemeSplit_wf {scheme host path0 base : Str}
    (h : WfBase scheme host path0 base) :
    schemeSplit base = some (scheme, host ++ path0) := by
  have hb := h.1
  unfold schemeSplit
  rw [hb, strColonSlashSlash, strSlashSlash]
  rw [List.append_assoc (scheme ++ [':', '/', '/']) host path0]
  exact splitFirst_boundary ':' ['/', '/'] scheme (host ++ path0)
    (WfBase.scheme_ne_colon h)

theorem netlocOf_concat (scheme host tail : Str)
    (hsa : ∀ c ∈ scheme, c ≠ ':')
    (hh : ∀ c ∈ host, isNetlocEnd c = false)
    (ht : tail = [] ∨ tail.head? = some '/') :
    netlocOf (scheme ++ "://".toList ++ host ++ tail) = host := by
  unfold netlocOf schemeSplit
  rw [strColonSlashSlash, strSlashSlash]
  rw [List.append_assoc (scheme ++ [':', '/', '/']) host tail]
  rw [splitFirst_boundary ':' ['/', '/'] scheme (host ++ tail) hsa]
  simp only
  rw [takeWhile_append_all _ host tail (fun c hc => by rw [hh c hc]; rfl)]
  rcases ht with rfl | hhd
  · simp
  · cases tail with
    | nil => simp at hhd
    | cons a t =>
        have ha : a = '/' := by simpa using hhd
        rw [takeWhile_head_false _ a t (by rw [ha]; rfl)]
        simp

theorem netlocOf_wf {scheme host path0 base : Str}
    (h : WfBase scheme host path0 base) : netlocOf base = host := by
  have hb := h.1
  rw [hb]
  exact netlocOf_concat scheme host path0 (WfBase.scheme_ne_colon h) h.2.2.2.2.1
    h.2.2.2.2.2

theorem schemeOf_wf {scheme host path0 base : Str}
    (h : WfBase scheme host path0 base) : schemeOf base = scheme := by
  unfold schemeOf
  rw [schemeSplit_wf h]

theorem schemeRootOf_wf {scheme host path0 base : Str}
    (h : WfBase scheme host path0 base) :
    schemeRootOf base = scheme ++ "://".toList ++ host := by
  unfold schemeRootOf
  rw [schemeOf_wf h, netlocOf_wf h]

theorem pathOf_wf {scheme host path0 base : Str}
    (h : WfBase scheme host path0 base) :
    pathOf base = path0.takeWhile fun c => !isPathEnd c := by
  unfold pathOf
  rw [schemeSplit_wf h]
  simp only
  rw [dropWhile_append_all _ host path0 (fun c hc => by rw [h.2.2.2.2.1 c hc]; rfl)]
  rcases h.2.2.2.2.2 with rfl | hhd
  · simp
  · cases path0 with
    | nil => simp at hhd
    | cons a t =>
        have ha : a = '/' := by simpa using hhd
        subst ha
        rw [List.dropWhile_cons_of_neg (by decide)]

theorem dirnameOf_isPrefix (p : Str) : dirnameOf p <+: p := by
  unfold dirnameOf
  have h1 : (p.reverse.dropWhile (· ≠ '/')).drop 1 <:+ p.reverse :=
    (List.drop_suffix 1 _).trans (List.dropWhile_suffix _)
  have h2 := h1
  rw [show (p.reverse.dropWhile (· ≠ '/')).drop 1 =
      ((p.reverse.dropWhile (· ≠ '/')).drop 1).reverse.reverse by simp] at h2
  exact List.reverse_suffix.mp h2

theorem hasScheme_head_slash (s : Str) (h : s.head? = some '/') :
    hasScheme s = false := by
  cases s with
  | nil => simp at h
  | cons c t =>
      have hc : c = '/' := by simpa using h
      subst hc
      unfold hasScheme
      rw [List.takeWhile_cons_of_pos (by decide)]
      simp [Char.isAlpha, Char.isUpper, Char.isLower]

theorem urljoin_netloc_root {scheme host path0 base : Str}
    (h : WfBase scheme host path0 base) (s : Str)
    (h1 : s.head? = some '/') (h2 : "//".toList.isPrefixOf s = false) :
    netlocOf (urljoin base s) = host := by
  unfold urljoin
  rw [hasScheme_head_slash s h1, h2]
  rw [show "/".toList.isPrefixOf s = true from (singleton_isPrefixOf '/' s).mpr h1]
  simp only [Bool.false_eq_true, if_false, if_true]
  rw [schemeRootOf_wf h]
  have hc := netlocOf_concat scheme host s (WfBase.scheme_ne_colon h)
    h.2.2.2.2.1 (Or.inr h1)
  simpa [List.append_assoc] using hc

theorem urljoin_netloc_rel {scheme host path0 base : Str}
    (h : WfBase scheme host path0 base) (s : Str)
    (hns : hasScheme s = false) (hsl : "/".toList.isPrefixOf s = false) :
    netlocOf (urljoin base s) = host := by
  have h2 : "//".toList.isPrefixOf s = false := by
    cases hq : ("//".toList.isPrefixOf s) with
    | false => rfl
    | true =>
        obtain ⟨t, ht⟩ := List.isPrefixOf_iff_prefix.mp hq
        have hhead : s.head? = some '/' := by rw [← ht]; rfl
        have h3 : (['/'] : Str).isPrefixOf s = false := hsl
        rw [(singleton_isPrefixOf '/' s).mpr hhead] at h3
        exact absurd h3 (by simp)
  unfold urljoin
  rw [hns, h2, hsl]
  simp only [Bool.false_eq_true, if_false]
  rw [schemeRootOf_wf h]
  have htail : (dirnameOf (pathOf base) ++ ['/'] ++ s).head? = some '/' := by
    cases hd : dirnameOf (pathOf base) with
    | nil => simp [hd]
    | cons d ds =>
        have hp := dirnameOf_isPrefix (pathOf base)
        rw [hd] at hp
        obtain ⟨t2, ht2⟩ := hp
        have hpath := pathOf_wf h
        rcases h.2.2.2.2.2 with hp0 | hhd
        · rw [hp0] at hpath
          simp at hpath
          rw [hpath] at ht2
          exact absurd ht2.symm (by simp)
        · rcases path0 with - | ⟨a, t3⟩
          · simp at hhd
          · have ha : a = '/' := by simpa using hhd
            subst ha
            rw [List.takeWhile_cons_of_pos (by decide)] at hpath
            rw [hpath] at ht2
            have hdEq : d = '/' := by
              have := List.cons_eq_cons.mp ht2
              exact this.1
            simp [hdEq]
  have hc := netlocOf_concat scheme host (dirnameOf (pathOf base) ++ ['/'] ++ s)
    (WfBase.scheme_ne_colon h) h.2.2.2.2.1 (Or.inr htail)
  simpa [List.append_assoc] using hc

theorem keepIfKeywordWS_spec {full u : Str} (h : keepIfKeywordWS full = some u) :
    u = full ∧ wsKeyword u = true := by
  unfold keepIfKeywordWS at h
  by_cases hk : wsKeyword full = true
  · rw [if_pos hk] at h
    obtain rfl := Option.some_injective _ h.symm
    exact ⟨rfl, hk⟩
  · rw [if_neg hk] at h
    exact absurd h (by simp)

theorem keepIfKeywordST_spec {full u : Str} (h : keepIfKeywordST full = some u) :
    u = full ∧ stKeyword u = true := by
  unfold keepIfKeywordST at h
  by_cases hk : stKeyword full = true
  · rw [if_pos hk] at h
    obtain rfl := Option.some_injective _ h.symm
    exact ⟨rfl, hk⟩
  · rw [if_neg hk] at h
    exact absurd h (by simp)

theorem resolveWS_spec {base h u : Str} (hres : resolveWS base h = some u) :
    wsKeyword u = true ∧
    (("/".toList.isPrefixOf (pyStrip h) = true ∧ u = urljoin base (pyStrip h)) ∨
     (("http://".toList.isPrefixOf (pyStrip h) ||
         "https://".toList.isPrefixOf (pyStrip h)) = true ∧
        netlocOf (pyStrip h) = netlocOf base ∧ u = pyStrip h) ∨
     ("/".toList.isPrefixOf (pyStrip h) = false ∧
        ("http://".toList.isPrefixOf (pyStrip h) ||
          "https://".toList.isPrefixOf (pyStrip h)) = false ∧
        hasScheme (pyStrip h) = hasScheme (pyStrip h) ∧
        u = urljoin base (pyStrip h))) := by
  unfold resolveWS at hres
  split at hres
  · exact absurd hres (by simp)
  · split at hres
    · exact absurd hres (by simp)
    · split at hres
      · next hslash =>
          obtain ⟨rfl, hk⟩ := keepIfKeywordWS_spec hres
          exact ⟨hk, Or.inl ⟨by simpa using hslash, rfl⟩⟩
      · next hslash =>
          split at hres
          · next hhttp =>
              split at hres
              · exact absurd hres (by simp)
              · next hne =>
                  obtain ⟨rfl, hk⟩ := keepIfKeywordWS_spec hres
                  refine ⟨hk, Or.inr (Or.inl ⟨by simpa using hhttp, ?_, rfl⟩)⟩
                  exact not_ne_iff.mp hne
          · next hhttp =>
              obtain ⟨rfl, hk⟩ := keepIfKeywordWS_spec hres
              refine ⟨hk, Or.inr (Or.inr ⟨?_, ?_, rfl, rfl⟩)⟩
              · exact (Bool.not_eq_true _) ▸ hslash
              · exact (Bool.not_eq_true _) ▸ hhttp

theorem resolveST_spec {base h u : Str} (hres : resolveST base h = some u) :
    stKeyword u = true ∧
    (("/".toList.isPrefixOf (pyStrip h) = true ∧ u = urljoin base (pyStrip h)) ∨
     ("/".toList.isPrefixOf (pyStrip h) = false ∧
        "http".toList.isPrefixOf (pyStrip h) = false ∧
        u = urljoin base (pyStrip h)) ∨
     ("http".toList.isPrefixOf (pyStrip h) = true ∧
        strContains (pyStrip h) base = true ∧ u = pyStrip h)) := by
  unfold resolveST at hres
  split at hres
  · exact absurd hres (by simp)
  · split at hres
    · exact absurd hres (by simp)
    · split at hres
      · next hslash =>
          obtain ⟨rfl, hk⟩ := keepIfKeywordST_spec hres
          exact ⟨hk, Or.inl ⟨by simpa using hslash, rfl⟩⟩
      · next hslash =>
          split at hres
          · exact absurd hres (by simp)
          · next hext =>
              split at hres
              · next hnh =>
                  obtain ⟨rfl, hk⟩ := keepIfKeywordST_spec hres
                  refine ⟨hk, Or.inr (Or.inl
                    ⟨(Bool.not_eq_true _) ▸ hslash, ?_, rfl⟩)⟩
                  exact (Bool.not_eq_true' _) ▸ hnh
              · next hnh =>
                  obtain ⟨rfl, hk⟩ := keepIfKeywordST_spec hres
                  have hb : (!"http".toList.isPrefixOf (pyStrip h)) = false :=
                    (Bool.not_eq_true _) ▸ hnh
                  have hhp : "http".toList.isPrefixOf (pyStrip h) = true :=
                    (Bool.not_eq_false' _) ▸ hb
                  refine ⟨hk, Or.inr (Or.inr ⟨hhp, ?_, rfl⟩)⟩
                  have hfalse : ("http".toList.isPrefixOf (pyStrip h) &&
                      !strContains (pyStrip h) base) = false :=
                    (Bool.not_eq_true _) ▸ hext
                  rw [hhp, Bool.true_and, Bool.not_eq_false'] at hfalse
                  exact hfalse

theorem resolveWS_netloc {scheme host path0 base : Str}
    (hw : WfBase scheme host path0 base) {h u : Str}
    (hg : GoodWS (pyStrip h)) (hres : resolveWS base h = some u) :
    netlocOf u = host := by
  obtain ⟨-, hbranch⟩ := resolveWS_spec hres
  rcases hbranch with ⟨hsl, rfl⟩ | ⟨hhttp, hnet, rfl⟩ | ⟨hsl, hhttp, -, rfl⟩
  · have hhead : (pyStrip h).head? = some '/' :=
      (singleton_isPrefixOf '/' (pyStrip h)).mp hsl
    exact urljoin_netloc_root hw (pyStrip h) hhead hg.1
  · rw [hnet, netlocOf_wf hw]
  · have hns : hasScheme (pyStrip h) = false := by
      cases hq : hasScheme (pyStrip h) with
      | false => rfl
      | true =>
          rw [hg.2 hq] at hhttp
          exact absurd hhttp (by simp)
    exact urljoin_netloc_rel hw (pyStrip h) hns hsl

theorem resolveST_netloc {scheme host path0 base : Str}
    (hw : WfBase scheme host path0 base) {h u : Str}
    (hg : GoodST base host (pyStrip h)) (hres : resolveST base h = some u) :
    netlocOf u = host := by
  obtain ⟨-, hbranch⟩ := resolveST_spec hres
  rcases hbranch with ⟨hsl, rfl⟩ | ⟨hsl, hhttp, rfl⟩ | ⟨hhttp, hcont, rfl⟩
  · have hhead : (pyStrip h).head? = some '/' :=
      (singleton_isPrefixOf '/' (pyStrip h)).mp hsl
    exact urljoin_netloc_root hw (pyStrip h) hhead hg.1
  · have hns : hasScheme (pyStrip h) = false := by
      cases hq : hasScheme (pyStrip h) with
      | false => rfl
      | true =>
          rw [hg.2.1 hq] at hhttp
          exact absurd hhttp (by simp)
    exact urljoin_netloc_rel hw (pyStrip h) hns hsl
  · exact hg.2.2 hhttp hcont

theorem mem_discoverWS {enum : List Str → List Str} {hrefs : List Str}
    {base u : Str}
    (hperm : List.Perm (enum (candidatesWS hrefs base)) (candidatesWS hrefs base))
    (hu : u ∈ discoverWS enum hrefs base) :
    ∃ h ∈ hrefs, resolveWS base h = some u := by
  have h1 : u ∈ enum (candidatesWS hrefs base) := List.take_subset _ _ hu
  have h2 : u ∈ candidatesWS hrefs base := hperm.mem_iff.mp h1
  rw [candidatesWS, mem_setOfList] at h2
  exact List.mem_filterMap.mp h2

theorem mem_discoverST {enum : List Str → List Str} {hrefs : List Str}
    {base u : Str}
    (hperm : List.Perm (enum (candidatesST hrefs base)) (candidatesST hrefs base))
    (hu : u ∈ discoverST enum hrefs base) :
    ∃ h ∈ hrefs, resolveST base h = some u := by
  have h1 : u ∈ enum (candidatesST hrefs base) := List.take_subset _ _ hu
  have h2 : u ∈ candidatesST hrefs base := hperm.mem_iff.mp h1
  rw [candidatesST, mem_setOfList] at h2
  exact List.mem_filterMap.mp h2

theorem take_length_le (l : List α) (n : Nat) : (l.take n).length ≤ n :=
  (List.length_take n l).trans_le (min_le_left _ _)

/-- C3 (amended): for both discovery implementations the returned list has at
most K elements (10 in `web_scraper.py`, 8 in `scrapetest.py`) and every
returned URL passes the keyword test on its lower-cased path; every returned
URL additionally has the base URL's host provided the anchor hrefs satisfy
the host-preservation provisos `GoodWS` resp. `GoodST`: no href is
protocol-relative (`//host/...`), every href carrying a scheme is an
`http://`/`https://` one (`web_scraper.py` applies its netloc check only to
those two prefixes) resp. starts with `http` (`scrapetest.py` treats every
other scheme as relative), and, in the `scrapetest.py` variant, whose
external-link test is only a substring test, hrefs starting with `http` that
contain the base URL as a substring are actually on the base host.  Without
these provisos the host claim is false — `claim_C3_counterexample` refutes it
both with a protocol-relative href and with a non-protocol-relative
`ftp://evil.com/about-us` href that both variants keep on a foreign host. -/
theorem claim_C3_discovery_bound_keyword_host
    (enumW enumS : List Str → List Str) (hrefs : List Str)
    (scheme host path0 base : Str) (hw : WfBase scheme host path0 base)
    (hpW : List.Perm (enumW (candidatesWS hrefs base)) (candidatesWS hrefs base))
    (hpS : List.Perm (enumS (candidatesST hrefs base)) (candidatesST hrefs base)) :
    (discoverWS enumW hrefs base).length ≤ 10 ∧
    (discoverST enumS hrefs base).length ≤ 8 ∧
    (∀ u ∈ discoverWS enumW hrefs base, wsKeyword u = true) ∧
    (∀ u ∈ discoverST enumS hrefs base, stKeyword u = true) ∧
    ((∀ h ∈ hrefs, GoodWS (pyStrip h)) →
      ∀ u ∈ discoverWS enumW hrefs base, netlocOf u = host) ∧
    ((∀ h ∈ hrefs, GoodST base host (pyStrip h)) →
      ∀ u ∈ discoverST enumS hrefs base, netlocOf u = host) := by
  refine ⟨take_length_le _ _, take_length_le _ _, ?_, ?_, ?_, ?_⟩
  · intro u hu
    obtain ⟨h, -, hres⟩ := mem_discoverWS hpW hu
    exact (resolveWS_spec hres).1
  · intro u hu
    obtain ⟨h, -, hres⟩ := mem_discoverST hpS hu
    exact (resolveST_spec hres).1
  · intro hg u hu
    obtain ⟨h, hh, hres⟩ := mem_discoverWS hpW hu
    exact resolveWS_netloc hw (hg h hh) hres
  · intro hg u hu
    obtain ⟨h, hh, hres⟩ := mem_discoverST hpS hu
    exact resolveST_netloc hw (hg h hh) hres

/-- Witness for C3 at a concrete input: one root-relative `about` link on
`https://acme.com`. -/
theorem claim_C3_witness :
    (∀ h ∈ (["/about".toList] : List Str), GoodWS (pyStrip h)) ∧
    (∀ h ∈ (["/about".toList] : List Str),
      GoodST "https://acme.com".toList "acme.com".toList (pyStrip h)) ∧
    (discoverWS id ["/about".toList] "https://acme.com".toList).length ≤ 10 ∧
    (∀ u ∈ discoverWS id ["/about".toList] "https://acme.com".toList,
      wsKeyword u = true) ∧
    (∀ u ∈ discoverWS id ["/about".toList] "https://acme.com".toList,
      netlocOf u = "acme.com".toList) ∧
    (∀ u ∈ discoverST id ["/about".toList] "https://acme.com".toList,
      netlocOf u = "acme.com".toList) := by
  have hw : WfBase "https".toList "acme.com".toList [] "https://acme.com".toList := by
    decide
  have main := claim_C3_discovery_bound_keyword_host id id ["/about".toList]
    "https".toList "acme.com".toList [] "https://acme.com".toList hw
    (List.Perm.refl _) (List.Perm.refl _)
  exact ⟨by decide, by decide, main.1, main.2.2.1,
    main.2.2.2.2.1 (by decide), main.2.2.2.2.2 (by decide)⟩

/-- Counterexample to C3 as stated: a protocol-relative href (both variants),
in the `scrapetest.py` variant an absolute external href that contains the
base URL as a substring, and (in both variants) a non-`http(s)`-scheme href
`ftp://evil.com/about-us` — which is not protocol-relative, so excluding
protocol-relative hrefs alone does not restore the claim — are all returned
although their host differs from the base host. -/
theorem claim_C3_counterexample :
    discoverWS id ["//evil.com/about".toList] "https://acme.com".toList =
      ["https://evil.com/about".toList] ∧
    netlocOf "https://evil.com/about".toList ≠
      netlocOf "https://acme.com".toList ∧
    discoverST id ["http://evil.com/about?from=https://acme.com".toList]
        "https://acme.com".toList =
      ["http://evil.com/about?from=https://acme.com".toList] ∧
    netlocOf "http://evil.com/about?from=https://acme.com".toList ≠
      netlocOf "https://acme.com".toList ∧
    discoverWS id ["ftp://evil.com/about-us".toList] "https://acme.com".toList =
      ["ftp://evil.com/about-us".toList] ∧
    discoverST id ["ftp://evil.com/about-us".toList] "https://acme.com".toList =
      ["ftp://evil.com/about-us".toList] ∧
    "//".toList.isPrefixOf "ftp://evil.com/about-us".toList = false ∧
    netlocOf "ftp://evil.com/about-us".toList ≠
      netlocOf "https://acme.com".toList := by decide

/-- C4 (amended): link discovery deduplicates by exact resolved URL — the
returned list never contains a URL twice, and every returned URL is the
resolution of some input href — but the links are accumulated in an unordered
`set` and returned as `list(internal_links)[:K]`, so the truncation keeps K
elements of an unspecified enumeration, not the first K in discovery order
(refuted as stated by `claim_C4_counterexample`). -/
theorem claim_C4_discovery_dedup
    (enumW enumS : List Str → List Str) (hrefs : List Str) (base : Str)
    (hpW : List.Perm (enumW (candidatesWS hrefs base)) (candidatesWS hrefs base))
    (hpS : List.Perm (enumS (candidatesST hrefs base)) (candidatesST hrefs base)) :
    (discoverWS enumW hrefs base).Nodup ∧
    (discoverST enumS hrefs base).Nodup ∧
    (∀ u ∈ discoverWS enumW hrefs base, ∃ h ∈ hrefs, resolveWS base h = some u) ∧
    (∀ u ∈ discoverST enumS hrefs base, ∃ h ∈ hrefs, resolveST base h = some u) := by
  refine ⟨?_, ?_, ?_, ?_⟩
  · have hn : (enumW (candidatesWS hrefs base)).Nodup :=
      hpW.nodup_iff.mpr (nodup_setOfList _)
    exact hn.sublist (List.take_sublist _ _)
  · have hn : (enumS (candidatesST hrefs base)).Nodup :=
      hpS.nodup_iff.mpr (nodup_setOfList _)
    exact hn.sublist (List.take_sublist _ _)
  · intro u hu
    exact mem_discoverWS hpW hu
  · intro u hu
    exact mem_discoverST hpS hu

/-- Witness for C4 at a concrete input. -/
theorem claim_C4_witness :
    (discoverWS id ["/about".toList, "/about".toList] "https://acme.com".toList).Nodup ∧
    (discoverST id ["/about".toList, "/about".toList] "https://acme.com".toList).Nodup ∧
    discoverWS id ["/about".toList, "/about".toList] "https://acme.com".toList =
      ["https://acme.com/about".toList] := by
  have main := claim_C4_discovery_dedup id id ["/about".toList, "/about".toList]
    "https://acme.com".toList (List.Perm.refl _) (List.Perm.refl _)
  exact ⟨main.1, main.2.1, by decide⟩

/-- Counterexample to C4 as stated: with nine keyword-matching links
discovered in document order and a legitimate set enumeration (here the
reverse of insertion order — CPython hash randomization makes the order
arbitrary), the truncation to K = 8 drops the first-discovered link, so the
returned list is not the first K links in discovery order. -/
theorem claim_C4_counterexample :
    List.Perm
      (List.reverse (candidatesST
        ["/about-1".toList, "/about-2".toList, "/about-3".toList,
         "/about-4".toList, "/about-5".toList, "/about-6".toList,
         "/about-7".toList, "/about-8".toList, "/about-9".toList]
        "http://a.co".toList))
      (candidatesST
        ["/about-1".toList, "/about-2".toList, "/about-3".toList,
         "/about-4".toList, "/about-5".toList, "/about-6".toList,
         "/about-7".toList, "/about-8".toList, "/about-9".toList]
        "http://a.co".toList) ∧
    (candidatesST
        ["/about-1".toList, "/about-2".toList, "/about-3".toList,
         "/about-4".toList, "/about-5".toList, "/about-6".toList,
         "/about-7".toList, "/about-8".toList, "/about-9".toList]
        "http://a.co".toList).head? = some "http://a.co/about-1".toList ∧
    (discoverST List.reverse
        ["/about-1".toList, "/about-2".toList, "/about-3".toList,
         "/about-4".toList, "/about-5".toList, "/about-6".toList,
         "/about-7".toList, "/about-8".toList, "/about-9".toList]
        "http://a.co".toList).length = 8 ∧
    "http://a.co/about-1".toList ∉
      discoverST List.reverse
        ["/about-1".toList, "/about-2".toList, "/about-3".toList,
         "/about-4".toList, "/about-5".toList, "/about-6".toList,
         "/about-7".toList, "/about-8".toList, "/about-9".toList]
        "http://a.co".toList := by
  refine ⟨List.reverse_perm _, ?_, ?_, ?_⟩
  · decide
  · decide
  · decide

/-- C2 (amended): both fetch functions report `ok` exactly for HTTP status
200 — not the whole 2xx range — with the raw markup; any other status yields
`ok=false` with `HTTP <code>` as the error and no markup, and a transport
exception yields `ok=false` with the exception text.  A single response is
consumed per call (no retry).  The 2xx form of the claim is refuted by
`claim_C2_counterexample`. -/
theorem claim_C2_fetch_status (code : Nat) (text url msg : Str) :
    ((scrapeUrl (.ok code text) url).success = true ↔ code = 200) ∧
    (code ≠ 200 →
      (scrapeUrl (.ok code text) url).error =
          some ("HTTP ".toList ++ natStr code) ∧
        (scrapeUrl (.ok code text) url).html = none) ∧
    (code = 200 →
      (scrapeUrl (.ok code text) url).html = some text ∧
        (scrapeUrl (.ok code text) url).error = none) ∧
    ((scrapeUrl (.exc msg) url).success = false ∧
      (scrapeUrl (.exc msg) url).error = some msg) ∧
    ((scrapeWebsitePage (.ok code text) url).success = true ↔ code = 200) ∧
    ((scrapeWebsitePage (.exc msg) url).success = false ∧
      (scrapeWebsitePage (.exc msg) url).error = some msg) := by
  refine ⟨?_, ?_, ?_, ⟨rfl, rfl⟩, ?_, ⟨rfl, rfl⟩⟩
  · simp [scrapeUrl]
  · intro hne
    simp [scrapeUrl, hne]
  · intro he
    simp [scrapeUrl, he]
  · simp [scrapeWebsitePage]

/-- Witness for C2 at concrete responses. -/
theorem claim_C2_witness :
    ((404 : Nat) ≠ 200) ∧
    (scrapeUrl (.ok 404 "err".toList) "https://acme.com".toList).error =
      some "HTTP 404".toList ∧
    (scrapeUrl (.ok 200 "page".toList) "https://acme.com".toList).success = true ∧
    (scrapeUrl (.exc "timeout".toList) "https://acme.com".toList).success = false := by
  have h404 := claim_C2_fetch_status 404 "err".toList "https://acme.com".toList
    "timeout".toList
  have h200 := claim_C2_fetch_status 200 "page".toList "https://acme.com".toList
    "timeout".toList
  refine ⟨by decide, ?_, h200.1.mpr rfl, h404.2.2.2.1.1⟩
  have := (h404.2.1 (by decide)).1
  rw [this]
  decide

/-- Counterexample to C2 as stated: 204 and 201 are 2xx statuses, yet both
fetch functions report failure for them (the code tests `== 200`, not the
2xx range). -/
theorem claim_C2_counterexample :
    (scrapeUrl (.ok 204 "no content".toList) "https://acme.com".toList).success
      = false ∧
    (scrapeUrl (.ok 204 "no content".toList) "https://acme.com".toList).error
      = some "HTTP 204".toList ∧
    (scrapeWebsitePage (.ok 201 "created".toList)
        "https://acme.com".toList).success = false := by decide

/-- C5: for a present profile with no failure flag and both mandatory
sections, `validate_extraction` computes the completion rate as filled
leaves over total leaves and returns `is_valid = false` exactly when that
rate is below the 10 percent floor. -/
theorem claim_C5_validator_threshold (fields : List (Str × JVal))
    (htr : truthy (JVal.obj fields) = true)
    (hflag : truthy (dictGetD fields "extraction_failed".toList .null) = false)
    (hs1 : dictContains fields "company_snapshot".toList = true)
    (hs2 : dictContains fields "mission_vision_values".toList = true) :
    validateExtraction (JVal.obj fields) =
      (if completionRate fields < 1/10 then
        Except.ok (false, ValidationMsg.lowCompletion (completionRate fields))
      else Except.ok (true, ValidationMsg.valid (completionRate fields))) ∧
    completionRate fields =
      (if totalLeaves fields > 0 then
        (availLeaves fields : ℚ) / (totalLeaves fields : ℚ) else 0) ∧
    (∀ b m, validateExtraction (JVal.obj fields) = .ok (b, m) →
      (b = false ↔ completionRate fields < 1/10)) := by
  have hval : validateExtraction (JVal.obj fields) =
      (if completionRate fields < 1/10 then
        Except.ok (false, ValidationMsg.lowCompletion (completionRate fields))
      else Except.ok (true, ValidationMsg.valid (completionRate fields))) := by
    unfold validateExtraction
    rw [htr]
    simp only [Bool.not_true, Bool.false_eq_true, if_false]
    rw [if_neg (by rw [hflag]; simp)]
    have h1 : (!dictContains fields "company_snapshot".toList) = false := by
      rw [hs1]
      rfl
    have h2 : (!dictContains fields "mission_vision_values".toList) = false := by
      rw [hs2]
      rfl
    rw [show requiredSections.find? (fun s => !dictContains fields s) = none by
      simp only [requiredSections, List.find?, h1, h2]]
  refine ⟨hval, rfl, ?_⟩
  intro b m heq
  rw [hval] at heq
  by_cases hrate : completionRate fields < 1/10
  · rw [if_pos hrate] at heq
    injection heq with hbm
    have hb : false = b := congrArg Prod.fst hbm
    rw [← hb]
    exact ⟨fun _ => hrate, fun _ => rfl⟩
  · rw [if_neg hrate] at heq
    injection heq with hbm
    have hb : true = b := congrArg Prod.fst hbm
    rw [← hb]
    exact ⟨fun habs => absurd habs (by simp), fun hlt => absurd hlt hrate⟩

/-- Witness for C5: a profile with 1 of 20 leaves filled is invalid (5
percent), one with 3 of 20 filled is valid (15 percent). -/
theorem claim_C5_witness :
    validateExtraction (JVal.obj
      [("company_snapshot".toList, JVal.obj
        [("founded".toList, JVal.str "1999".toList),
         ("headquarters".toList, JVal.str "Not available".toList),
         ("legal_structure".toList, JVal.null),
         ("number_of_employees".toList, JVal.null),
         ("annual_revenue_funding".toList, JVal.null),
         ("website".toList, JVal.null),
         ("industries_sectors".toList, JVal.null),
         ("extra_a".toList, JVal.null),
         ("extra_b".toList, JVal.null),
         ("extra_c".toList, JVal.null)]),
       ("mission_vision_values".toList, JVal.obj
        [("mission_statement".toList, JVal.str "Not found".toList),
         ("vision_statement".toList, JVal.null),
         ("core_values".toList, JVal.null),
         ("m4".toList, JVal.null), ("m5".toList, JVal.null),
         ("m6".toList, JVal.null), ("m7".toList, JVal.null),
         ("m8".toList, JVal.null), ("m9".toList, JVal.null),
         ("m10".toList, JVal.null)])]) =
      Except.ok (false, ValidationMsg.lowCompletion (1/20)) ∧
    validateExtraction (JVal.obj
      [("company_snapshot".toList, JVal.obj
        [("founded".toList, JVal.str "1999".toList),
         ("headquarters".toList, JVal.str "Berlin".toList),
         ("legal_structure".toList, JVal.null),
         ("number_of_employees".toList, JVal.null),
         ("annual_revenue_funding".toList, JVal.null),
         ("website".toList, JVal.null),
         ("industries_sectors".toList, JVal.null),
         ("extra_a".toList, JVal.null),
         ("extra_b".toList, JVal.null),
         ("extra_c".toList, JVal.null)]),
       ("mission_vision_values".toList, JVal.obj
        [("mission_statement".toList, JVal.str "To verify".toList),
         ("vision_statement".toList, JVal.null),
         ("core_values".toList, JVal.null),
         ("m4".toList, JVal.null), ("m5".toList, JVal.null),
         ("m6".toList, JVal.null), ("m7".toList, JVal.null),
         ("m8".toList, JVal.null), ("m9".toList, JVal.null),
         ("m10".toList, JVal.null)])]) =
      Except.ok (true, ValidationMsg.valid (3/20)) := by
  constructor
  · have h := claim_C5_validator_threshold
      [("company_snapshot".toList, JVal.obj
        [("founded".toList, JVal.str "1999".toList),
         ("headquarters".toList, JVal.str "Not available".toList),
         ("legal_structure".toList, JVal.null),
         ("number_of_employees".toList, JVal.null),
         ("annual_revenue_funding".toList, JVal.null),
         ("website".toList, JVal.null),
         ("industries_sectors".toList, JVal.null),
         ("extra_a".toList, JVal.null),
         ("extra_b".toList, JVal.null),
         ("extra_c".toList, JVal.null)]),
       ("mission_vision_values".toList, JVal.obj
        [("mission_statement".toList, JVal.str "Not found".toList),
         ("vision_statement".toList, JVal.null),
         ("core_values".toList, JVal.null),
         ("m4".toList, JVal.null), ("m5".toList, JVal.null),
         ("m6".toList, JVal.null), ("m7".toList, JVal.null),
         ("m8".toList, JVal.null), ("m9".toList, JVal.null),
         ("m10".toList, JVal.null)])]
      rfl rfl rfl rfl
    rw [h.1]
    have htot : totalLeaves
        [("company_snapshot".toList, JVal.obj
          [("founded".toList, JVal.str "1999".toList),
           ("headquarters".toList, JVal.str "Not available".toList),
           ("legal_structure".toList, JVal.null),
           ("number_of_employees".toList, JVal.null),
           ("annual_revenue_funding".toList, JVal.null),
           ("website".toList, JVal.null),
           ("industries_sectors".toList, JVal.null),
           ("extra_a".toList, JVal.null),
           ("extra_b".toList, JVal.null),
           ("extra_c".toList, JVal.null)]),
         ("mission_vision_values".toList, JVal.obj
          [("mission_statement".toList, JVal.str "Not found".toList),
           ("vision_statement".toList, JVal.null),
           ("core_values".toList, JVal.null),
           ("m4".toList, JVal.null), ("m5".toList, JVal.null),
           ("m6".toList, JVal.null), ("m7".toList, JVal.null),
           ("m8".toList, JVal.null), ("m9".toList, JVal.null),
           ("m10".toList, JVal.null)])] = 20 := by decide
    have hav : availLeaves
        [("company_snapshot".toList, JVal.obj
          [("founded".toList, JVal.str "1999".toList),
           ("headquarters".toList, JVal.str "Not available".toList),
           ("legal_structure".toList, JVal.null),
           ("number_of_employees".toList, JVal.null),
           ("annual_revenue_funding".toList, JVal.null),
           ("website".toList, JVal.null),
           ("industries_sectors".toList, JVal.null),
           ("extra_a".toList, JVal.null),
           ("extra_b".toList, JVal.null),
           ("extra_c".toList, JVal.null)]),
         ("mission_vision_values".toList, JVal.obj
          [("mission_statement".toList, JVal.str "Not found".toList),
           ("vision_statement".toList, JVal.null),
           ("core_values".toList, JVal.null),
           ("m4".toList, JVal.null), ("m5".toList, JVal.null),
           ("m6".toList, JVal.null), ("m7".toList, JVal.null),
           ("m8".toList, JVal.null), ("m9".toList, JVal.null),
           ("m10".toList, JVal.null)])] = 1 := by decide
    have hrate : completionRate
        [("company_snapshot".toList, JVal.obj
          [("founded".toList, JVal.str "1999".toList),
           ("headquarters".toList, JVal.str "Not available".toList),
           ("legal_structure".toList, JVal.null),
           ("number_of_employees".toList, JVal.null),
           ("annual_revenue_funding".toList, JVal.null),
           ("website".toList, JVal.null),
           ("industries_sectors".toList, JVal.null),
           ("extra_a".toList, JVal.null),
           ("extra_b".toList, JVal.null),
           ("extra_c".toList, JVal.null)]),
         ("mission_vision_values".toList, JVal.obj
          [("mission_statement".toList, JVal.str "Not found".toList),
           ("vision_statement".toList, JVal.null),
           ("core_values".toList, JVal.null),
           ("m4".toList, JVal.null), ("m5".toList, JVal.null),
           ("m6".toList, JVal.null), ("m7".toList, JVal.null),
           ("m8".toList, JVal.null), ("m9".toList, JVal.null),
           ("m10".toList, JVal.null)])] = 1/20 := by
      unfold completionRate
      rw [htot, hav]
      norm_num
    rw [hrate]
    rw [if_pos (by norm_num)]
  · have h := claim_C5_validator_threshold
      [("company_snapshot".toList, JVal.obj
        [("founded".toList, JVal.str "1999".toList),
         ("headquarters".toList, JVal.str "Berlin".toList),
         ("legal_structure".toList, JVal.null),
         ("number_of_employees".toList, JVal.null),
         ("annual_revenue_funding".toList, JVal.null),
         ("website".toList, JVal.null),
         ("industries_sectors".toList, JVal.null),
         ("extra_a".toList, JVal.null),
         ("extra_b".toList, JVal.null),
         ("extra_c".toList, JVal.null)]),
       ("mission_vision_values".toList, JVal.obj
        [("mission_statement".toList, JVal.str "To verify".toList),
         ("vision_statement".toList, JVal.null),
         ("core_values".toList, JVal.null),
         ("m4".toList, JVal.null), ("m5".toList, JVal.null),
         ("m6".toList, JVal.null), ("m7".toList, JVal.null),
         ("m8".toList, JVal.null), ("m9".toList, JVal.null),
         ("m10".toList, JVal.null)])]
      rfl rfl rfl rfl
    rw [h.1]
    have htot : totalLeaves
        [("company_snapshot".toList, JVal.obj
          [("founded".toList, JVal.str "1999".toList),
           ("headquarters".toList, JVal.str "Berlin".toList),
           ("legal_structure".toList, JVal.null),
           ("number_of_employees".toList, JVal.null),
           ("annual_revenue_funding".toList, JVal.null),
           ("website".toList, JVal.null),
           ("industries_sectors".toList, JVal.null),
           ("extra_a".toList, JVal.null),
           ("extra_b".toList, JVal.null),
           ("extra_c".toList, JVal.null)]),
         ("mission_vision_values".toList, JVal.obj
          [("mission_statement".toList, JVal.str "To verify".toList),
           ("vision_statement".toList, JVal.null),
           ("core_values".toList, JVal.null),
           ("m4".toList, JVal.null), ("m5".toList, JVal.null),
           ("m6".toList, JVal.null), ("m7".toList, JVal.null),
           ("m8".toList, JVal.null), ("m9".toList, JVal.null),
           ("m10".toList, JVal.null)])] = 20 := by decide
    have hav : availLeaves
        [("company_snapshot".toList, JVal.obj
          [("founded".toList, JVal.str "1999".toList),
           ("headquarters".toList, JVal.str "Berlin".toList),
           ("legal_structure".toList, JVal.null),
           ("number_of_employees".toList, JVal.null),
           ("annual_revenue_funding".toList, JVal.null),
           ("website".toList, JVal.null),
           ("industries_sectors".toList, JVal.null),
           ("extra_a".toList, JVal.null),
           ("extra_b".toList, JVal.null),
           ("extra_c".toList, JVal.null)]),
         ("mission_vision_values".toList, JVal.obj
          [("mission_statement".toList, JVal.str "To verify".toList),
           ("vision_statement".toList, JVal.null),
           ("core_values".toList, JVal.null),
           ("m4".toList, JVal.null), ("m5".toList, JVal.null),
           ("m6".toList, JVal.null), ("m7".toList, JVal.null),
           ("m8".toList, JVal.null), ("m9".toList, JVal.null),
           ("m10".toList, JVal.null)])] = 3 := by decide
    have hrate : completionRate
        [("company_snapshot".toList, JVal.obj
          [("founded".toList, JVal.str "1999".toList),
           ("headquarters".toList, JVal.str "Berlin".toList),
           ("legal_structure".toList, JVal.null),
           ("number_of_employees".toList, JVal.null),
           ("annual_revenue_funding".toList, JVal.null),
           ("website".toList, JVal.null),
           ("industries_sectors".toList, JVal.null),
           ("extra_a".toList, JVal.null),
           ("extra_b".toList, JVal.null),
           ("extra_c".toList, JVal.null)]),
         ("mission_vision_values".toList, JVal.obj
          [("mission_statement".toList, JVal.str "To verify".toList),
           ("vision_statement".toList, JVal.null),
           ("core_values".toList, JVal.null),
           ("m4".toList, JVal.null), ("m5".toList, JVal.null),
           ("m6".toList, JVal.null), ("m7".toList, JVal.null),
           ("m8".toList, JVal.null), ("m9".toList, JVal.null),
           ("m10".toList, JVal.null)])] = 3/20 := by
      unfold completionRate
      rw [htot, hav]
      norm_num
    rw [hrate]
    rw [if_neg (by norm_num)]

theorem uint32_le_iff {a b : UInt32} : a ≤ b ↔ a.toNat ≤ b.toNat := by
  rw [UInt32.le_def, BitVec.le_def]
  exact Iff.rfl

theorem char_toNat_ofNat {n : Nat} (h : n.isValidChar) :
    (Char.ofNat n).toNat = n := by
  rw [Char.ofNat, dif_pos h]
  rfl

theorem char_isUpper_iff (c : Char) :
    c.isUpper = true ↔ 65 ≤ c.toNat ∧ c.toNat ≤ 90 := by
  simp only [Char.isUpper, Bool.and_eq_true, decide_eq_true_eq]
  constructor
  · rintro ⟨h1, h2⟩
    exact ⟨by simpa using uint32_le_iff.mp h1, by simpa using uint32_le_iff.mp h2⟩
  · rintro ⟨h1, h2⟩
    exact ⟨uint32_le_iff.mpr (by simpa using h1),
      uint32_le_iff.mpr (by simpa using h2)⟩

theorem toLower_not_upper (c : Char) : (c.toLower).isUpper = false := by
  have hdef : c.toLower =
      if c.toNat ≥ 65 ∧ c.toNat ≤ 90 then Char.ofNat (c.toNat + 32) else c := rfl
  rw [hdef]
  by_cases h : c.toNat ≥ 65 ∧ c.toNat ≤ 90
  · rw [if_pos h]
    have hv : (c.toNat + 32).isValidChar := Or.inl (by omega)
    have ht := char_toNat_ofNat hv
    rw [Bool.eq_false_iff]
    intro hc
    have := (char_isUpper_iff _).mp hc
    omega
  · rw [if_neg h]
    rw [Bool.eq_false_iff]
    intro hc
    exact h (by have := (char_isUpper_iff _).mp hc; omega)

theorem toLower_idem (c : Char) : c.toLower.toLower = c.toLower := by
  have hdef : ∀ d : Char,
      d.toLower = if d.toNat ≥ 65 ∧ d.toNat ≤ 90 then Char.ofNat (d.toNat + 32)
        else d := fun _ => rfl
  rw [hdef c.toLower, if_neg]
  intro hcontra
  have h2 := toLower_not_upper c
  rw [Bool.eq_false_iff] at h2
  exact h2 ((char_isUpper_iff _).mpr (by omega))

theorem pyLower_idem (s : Str) : pyLower (pyLower s) = pyLower s := by
  unfold pyLower
  rw [List.map_map]
  exact List.map_congr_left fun c _ => toLower_idem c

theorem mem_setInsert [DecidableEq α] (acc : List α) (y x : α) :
    x ∈ setInsert acc y ↔ x ∈ acc ∨ x = y := by
  unfold setInsert
  by_cases hy : y ∈ acc
  · rw [if_pos hy]
    constructor
    · exact Or.inl
    · rintro (h | rfl)
      · exact h
      · exact hy
  · rw [if_neg hy]
    simp

/-- Generic preservation along a `foldl`. -/
theorem foldl_pres {α β : Type} (P : α → Prop) (g : List α → β → List α)
    (hg : ∀ acc b, (∀ x ∈ acc, P x) → ∀ x ∈ g acc b, P x) :
    ∀ (l : List β) (acc : List α), (∀ x ∈ acc, P x) →
      ∀ x ∈ l.foldl g acc, P x := by
  intro l
  induction l with
  | nil => intro acc hacc x hx; exact hacc x hx
  | cons b bs ih =>
      intro acc hacc x hx
      exact ih (g acc b) (hg acc b hacc) x hx

theorem emailsSet_lowered (m : Str → List Str) (v : SoupView) :
    ∀ e ∈ emailsSet m v, pyLower e = e := by
  unfold emailsSet
  apply foldl_pres (fun e => pyLower e = e)
  · intro acc b hacc x hx
    rcases (mem_setInsert _ _ _).mp hx with h | rfl
    · exact hacc x h
    · exact pyLower_idem _
  · apply foldl_pres (fun e => pyLower e = e)
    · intro acc b hacc x hx
      refine foldl_pres (fun e => pyLower e = e) _ ?_ (m b) acc hacc x hx
      intro acc2 e hacc2 y hy
      rcases (mem_setInsert _ _ _).mp hy with h | rfl
      · exact hacc2 y h
      · exact pyLower_idem _
    · apply foldl_pres (fun e => pyLower e = e)
      · intro acc b hacc x hx
        by_cases hb : (mailtoEmail b).isEmpty = true
        · rw [if_neg (by rw [hb]; simp)] at hx
          exact hacc x hx
        · have hbf : (mailtoEmail b).isEmpty = false := (Bool.not_eq_true _) ▸ hb
          rw [if_pos (by rw [hbf]; rfl)] at hx
          rcases (mem_setInsert _ _ _).mp hx with h | rfl
          · exact hacc x h
          · exact pyLower_idem _
      · intro x hx
        simp at hx

/-- C7: email extraction is a pure function of the markup (re-running it
yields the same result, and its member set does not depend on which
enumeration the iteration over the Python set uses); every returned email is
lower-cased; and no returned email contains any exclusion fragment. -/
theorem claim_C7_email_extraction (parse : Str → SoupView) (m : Str → List Str)
    (enum1 enum2 : List Str → List Str) (html : Str)
    (h1 : List.Perm (enum1 (emailsSet m (parse html)))
      (emailsSet m (parse html)))
    (h2 : List.Perm (enum2 (emailsSet m (parse html)))
      (emailsSet m (parse html))) :
    extractEmailsFromHtml parse m enum1 html =
      extractEmailsFromHtml parse m enum1 html ∧
    (∀ e, e ∈ extractEmailsFromHtml parse m enum1 html ↔
      e ∈ extractEmailsFromHtml parse m enum2 html) ∧
    (∀ e ∈ extractEmailsFromHtml parse m enum1 html, pyLower e = e) ∧
    (∀ e ∈ extractEmailsFromHtml parse m enum1 html,
      ∀ p ∈ excludePatternsEmail, strContains e p = false) := by
  refine ⟨rfl, ?_, ?_, ?_⟩
  · intro e
    unfold extractEmailsFromHtml
    by_cases hh : html.isEmpty = true
    · rw [if_pos hh, if_pos hh]
    · rw [if_neg hh, if_neg hh, List.mem_filter, List.mem_filter, h1.mem_iff,
        h2.mem_iff]
  · intro e he
    unfold extractEmailsFromHtml at he
    by_cases hh : html.isEmpty = true
    · rw [if_pos hh] at he
      exact absurd he (by simp)
    · rw [if_neg hh] at he
      have hmem := h1.mem_iff.mp (List.mem_filter.mp he).1
      exact emailsSet_lowered m (parse html) e hmem
  · intro e he p hp
    unfold extractEmailsFromHtml at he
    by_cases hh : html.isEmpty = true
    · rw [if_pos hh] at he
      exact absurd he (by simp)
    · rw [if_neg hh] at he
      have hfil := (List.mem_filter.mp he).2
      have hany : (excludePatternsEmail.any fun q => strContains e q) = false :=
        (Bool.not_eq_true' _) ▸ hfil
      cases hq : strContains e p with
      | false => rfl
      | true =>
          have hcon : (excludePatternsEmail.any fun q => strContains e q) = true :=
            List.any_eq_true.mpr ⟨p, hp, hq⟩
          rw [hcon] at hany
          exact absurd hany (by simp)

/-- Witness for C7: a concrete page with a `mailto:` anchor (mixed case, with
a query suffix) and a regex oracle returning one good and one excluded
address. -/
theorem claim_C7_witness :
    extractEmailsFromHtml
        (fun _ => { mailtoHrefs := ["mailto:Sales@Acme.com?subject=hi".toList],
                    contactTexts := ["footer text".toList],
                    fullText := "page text".toList })
        (fun _ => ["Info@Acme.com".toList, "noreply@acme.com".toList])
        id "<html>page</html>".toList =
      ["sales@acme.com".toList, "info@acme.com".toList] ∧
    (∀ e ∈ extractEmailsFromHtml
        (fun _ => { mailtoHrefs := ["mailto:Sales@Acme.com?subject=hi".toList],
                    contactTexts := ["footer text".toList],
                    fullText := "page text".toList })
        (fun _ => ["Info@Acme.com".toList, "noreply@acme.com".toList])
        id "<html>page</html>".toList, pyLower e = e) ∧
    (∀ e ∈ extractEmailsFromHtml
        (fun _ => { mailtoHrefs := ["mailto:Sales@Acme.com?subject=hi".toList],
                    contactTexts := ["footer text".toList],
                    fullText := "page text".toList })
        (fun _ => ["Info@Acme.com".toList, "noreply@acme.com".toList])
        id "<html>page</html>".toList,
      ∀ p ∈ excludePatternsEmail, strContains e p = false) := by
  have h := claim_C7_email_extraction
    (fun _ => { mailtoHrefs := ["mailto:Sales@Acme.com?subject=hi".toList],
                contactTexts := ["footer text".toList],
                fullText := "page text".toList })
    (fun _ => ["Info@Acme.com".toList, "noreply@acme.com".toList])
    id id "<html>page</html>".toList (List.Perm.refl _) (List.Perm.refl _)
  exact ⟨by decide, h.2.2.1, h.2.2.2⟩

/-- C8: in the aggregate produced by `combine_page_content`, each page's
cleaned text contributes at most 2000 characters (`truncClean` is exactly
the portion of each page chunk coming from the cleaner, for any cleaner and
any markup), and the prepended contact-hint block holds at most 5
deduplicated hints (for any legitimate set enumeration). -/
theorem claim_C8_truncation_caps (cleanFn : Str → Str) (html : Str)
    (enum : List Str → List Str) (hints : List Str)
    (hperm : List.Perm (enum (setOfList hints)) (setOfList hints)) :
    (truncClean cleanFn html).length ≤ 2000 ∧
    (uniqueHints enum hints).length ≤ 5 ∧
    (uniqueHints enum hints).Nodup := by
  refine ⟨take_length_le _ _, take_length_le _ _, ?_⟩
  exact (hperm.nodup_iff.mpr (nodup_setOfList _)).sublist (List.take_sublist _ _)

/-- Witness for C8 on a concrete over-long cleaned page and duplicated
hints. -/
theorem claim_C8_witness :
    (truncClean (fun _ => List.replicate 10000 'x') "<html>".toList).length
      ≤ 2000 ∧
    (uniqueHints id
      ["a".toList, "a".toList, "b".toList, "b".toList, "c".toList, "d".toList,
       "e".toList, "f".toList]).length ≤ 5 ∧
    (uniqueHints id
      ["a".toList, "a".toList, "b".toList, "b".toList, "c".toList, "d".toList,
       "e".toList, "f".toList]).Nodup := by
  exact claim_C8_truncation_caps (fun _ => List.replicate 10000 'x')
    "<html>".toList id
    ["a".toList, "a".toList, "b".toList, "b".toList, "c".toList, "d".toList,
     "e".toList, "f".toList] (List.Perm.refl _)

theorem dictLookup_map_set_ne (f : List (Str × JVal)) (k k' : Str) (v : JVal)
    (h : k' ≠ k) :
    dictLookup (f.map fun p => if p.1 == k then (p.1, v) else p) k' =
      dictLookup f k' := by
  induction f with
  | nil => rfl
  | cons p ps ih =>
      unfold dictLookup at *
      by_cases hpk : p.1 == k
      · rw [List.map_cons, if_pos hpk]
        by_cases hpk' : p.1 == k'
        · exact absurd (by
            have h1 : p.1 = k := by simpa using hpk
            have h2 : p.1 = k' := by simpa using hpk'
            rw [← h1, h2]) h
        · rw [List.find?_cons_of_neg _ (by simpa using hpk'),
            List.find?_cons_of_neg _ (by simpa using hpk')]
          exact ih
      · rw [List.map_cons, if_neg hpk]
        by_cases hpk' : p.1 == k'
        · rw [List.find?_cons_of_pos _ (by simpa using hpk'),
            List.find?_cons_of_pos _ (by simpa using hpk')]
        · rw [List.find?_cons_of_neg _ (by simpa using hpk'),
            List.find?_cons_of_neg _ (by simpa using hpk')]
          exact ih

theorem dictLookup_append (f g : List (Str × JVal)) (k : Str) :
    dictLookup (f ++ g) k =
      (dictLookup f k).orElse fun _ => dictLookup g k := by
  induction f with
  | nil => rfl
  | cons p ps ih =>
      unfold dictLookup at *
      by_cases hpk : p.1 == k
      · rw [List.cons_append, List.find?_cons_of_pos _ (by simpa using hpk),
          List.find?_cons_of_pos _ (by simpa using hpk)]
        rfl
      · rw [List.cons_append, List.find?_cons_of_neg _ (by simpa using hpk),
          List.find?_cons_of_neg _ (by simpa using hpk)]
        exact ih

theorem dictLookup_dictSet_ne (f : List (Str × JVal)) (k k' : Str) (v : JVal)
    (h : k' ≠ k) :
    dictLookup (dictSet f k v) k' = dictLookup f k' := by
  unfold dictSet
  by_cases hc : dictContains f k = true
  · rw [if_pos hc]
    exact dictLookup_map_set_ne f k k' v h
  · rw [if_neg hc, dictLookup_append]
    cases hf : dictLookup f k' with
    | some w => rfl
    | none =>
        show dictLookup [(k, v)] k' = none
        unfold dictLookup
        rw [List.find?_cons_of_neg _ (by simp; exact fun hcon => absurd hcon.symm h)]
        rfl

theorem dictGetD_dictSet_ne (f : List (Str × JVal)) (k k' : Str) (v d : JVal)
    (h : k' ≠ k) : dictGetD (dictSet f k v) k' d = dictGetD f k' d := by
  unfold dictGetD
  rw [dictLookup_dictSet_ne f k k' v h]

theorem dictLookup_dictSet_self (f : List (Str × JVal)) (k : Str) (v : JVal) :
    dictLookup (dictSet f k v) k = some v := by
  unfold dictSet
  by_cases hc : dictContains f k = true
  · rw [if_pos hc]
    unfold dictContains at hc
    induction f with
    | nil => simp [dictLookup] at hc
    | cons p ps ih =>
        by_cases hpk : p.1 == k
        · unfold dictLookup
          rw [List.map_cons, if_pos hpk]
          rw [List.find?_cons_of_pos _ (by simpa using hpk)]
          rfl
        · unfold dictLookup at *
          rw [List.map_cons, if_neg hpk]
          rw [List.find?_cons_of_neg _ (by simpa using hpk)]
          rw [List.find?_cons_of_neg _ (by simpa using hpk)] at hc
          exact ih hc
  · rw [if_neg hc, dictLookup_append]
    have hf : dictLookup f k = none := by
      unfold dictContains at hc
      cases hl : dictLookup f k with
      | none => rfl
      | some w => rw [hl] at hc; exact absurd rfl hc
    rw [hf]
    show dictLookup [(k, v)] k = some v
    unfold dictLookup
    rw [List.find?_cons_of_pos _ (by simp)]
    rfl

theorem emailStepSection_getD_ne (content : Str) (ci : List (Str × JVal))
    (fld : Str) (hf : fld ≠ "email".toList) :
    dictGetD (emailStepSection content ci) fld .null =
      dictGetD ci fld .null := by
  unfold emailStepSection
  cases hE : extractedEmailsSection content with
  | none => rfl
  | some sect =>
      dsimp only
      cases hL : (sect.splitOn ',').map pyStrip with
      | nil => rfl
      | cons first rest =>
          dsimp only
          by_cases hne : (!first.isEmpty) = true
          · rw [if_pos hne]
            exact dictGetD_dictSet_ne ci _ fld _ _ hf
          · rw [if_neg hne]

theorem emailStepRegex_getD_ne (R : RegexOracles) (enum : List Str → List Str)
    (content : Str) (ci1 : List (Str × JVal)) (fld : Str)
    (hf : fld ≠ "email".toList) :
    dictGetD (emailStepRegex R enum content ci1) fld .null =
      dictGetD ci1 fld .null := by
  unfold emailStepRegex
  by_cases h1 : truthy (dictGetD ci1 "email".toList .null) = true
  · rw [if_pos h1]
  · rw [if_neg h1]
    cases hB : businessEmails R enum content with
    | nil => rfl
    | cons e rest => exact dictGetD_dictSet_ne ci1 _ fld _ _ hf

theorem emailStep_getD (R : RegexOracles) (enum : List Str → List Str)
    (content : Str) (ci : List (Str × JVal)) (fld : Str)
    (ht : truthy (dictGetD ci fld .null) = true) :
    dictGetD (emailStep R enum content ci) fld .null =
      dictGetD ci fld .null := by
  unfold emailStep
  by_cases hf : fld = "email".toList
  · subst hf
    rw [if_pos ht]
  · by_cases h1 : truthy (dictGetD ci "email".toList .null) = true
    · rw [if_pos h1]
    · rw [if_neg h1]
      rw [emailStepRegex_getD_ne R enum content _ fld hf]
      exact emailStepSection_getD_ne content ci fld hf

theorem phoneStep_getD (R : RegexOracles) (content : Str)
    (ci : List (Str × JVal)) (fld : Str)
    (ht : truthy (dictGetD ci fld .null) = true) :
    dictGetD (phoneStep R content ci) fld .null = dictGetD ci fld .null := by
  unfold phoneStep
  by_cases hf : fld = "phone".toList
  · subst hf
    rw [if_pos ht]
  · by_cases h1 : truthy (dictGetD ci "phone".toList .null) = true
    · rw [if_pos h1]
    · rw [if_neg h1]
      cases h2 : R.phoneUS content with
      | cons p rest => exact dictGetD_dictSet_ne ci _ fld _ _ hf
      | nil =>
          cases h3 : R.phoneIntl content with
          | cons p rest => exact dictGetD_dictSet_ne ci _ fld _ _ hf
          | nil => rfl

theorem addrStep_getD (R : RegexOracles) (content : Str)
    (ci : List (Str × JVal)) (fld : Str)
    (ht : truthy (dictGetD ci fld .null) = true) :
    dictGetD (addrStep R content ci) fld .null = dictGetD ci fld .null := by
  unfold addrStep
  by_cases hf : fld = "address".toList
  · subst hf
    rw [if_pos ht]
  · by_cases h1 : truthy (dictGetD ci "address".toList .null) = true
    · rw [if_pos h1]
    · rw [if_neg h1]
      cases h2 : R.addr1 content with
      | cons a rest => exact dictGetD_dictSet_ne ci _ fld _ _ hf
      | nil =>
          cases h3 : R.addr2 content with
          | cons a rest => exact dictGetD_dictSet_ne ci _ fld _ _ hf
          | nil => rfl

theorem socialStep_getD (R : RegexOracles) (content : Str)
    (ci : List (Str × JVal)) (fld : Str)
    (ht : truthy (dictGetD ci fld .null) = true) :
    dictGetD (socialStep R content ci) fld .null = dictGetD ci fld .null := by
  unfold socialStep
  by_cases hf : fld = "social_media".toList
  · subst hf
    rw [if_pos ht]
  · by_cases h1 : truthy (dictGetD ci "social_media".toList .null) = true
    · rw [if_pos h1]
    · rw [if_neg h1]
      by_cases h2 : (!(([("linkedin".toList, R.linkedin),
          ("twitter".toList, R.twitter), ("facebook".toList, R.facebook),
          ("instagram".toList, R.instagram), ("youtube".toList, R.youtube)] :
            List (Str × (Str → List Str))).foldl
          (fun acc pf =>
            match pf.2 content with
            | u :: _ => acc ++ [(pf.1, JVal.str ("https://".toList ++ u))]
            | [] => acc) []).isEmpty) = true
      · rw [if_pos h2]
        exact dictGetD_dictSet_ne ci _ fld _ _ hf
      · rw [if_neg h2]

theorem testimonialStep_getD (content : Str) (sp : List (Str × JVal))
    (fld : Str) (ht : truthy (dictGetD sp fld .null) = true) :
    dictGetD (testimonialStep content sp) fld .null =
      dictGetD sp fld .null := by
  unfold testimonialStep
  by_cases hf : fld = "testimonials".toList
  · subst hf
    rw [if_neg (by rw [ht]; simp)]
  · by_cases h1 : (!(testimonialContent content).isEmpty &&
        !truthy (dictGetD sp "testimonials".toList .null)) = true
    · rw [if_pos h1]
      exact dictGetD_dictSet_ne sp _ fld _ _ hf
    · rw [if_neg h1]

theorem clientStep_getD (R : RegexOracles) (content : Str)
    (sp : List (Str × JVal)) (fld : Str)
    (ht : truthy (dictGetD sp fld .null) = true) :
    dictGetD (clientStep R content sp) fld .null = dictGetD sp fld .null := by
  unfold clientStep
  by_cases hf : fld = "case_studies".toList
  · subst hf
    rw [if_neg (by rw [ht]; simp)]
  · by_cases h1 : (!(R.clients1 content ++ R.clients2 content ++
        R.clients3 content).isEmpty &&
        !truthy (dictGetD sp "case_studies".toList .null)) = true
    · rw [if_pos h1]
      exact dictGetD_dictSet_ne sp _ fld _ _ hf
    · rw [if_neg h1]

/-- C6: the post-parse fallback enrichment never overwrites a field the
model already populated: when the parsed reply's `contact_info` already holds
a truthy `email`, `phone`, `address` or `social_media`, and when its
`social_proof` already holds truthy `testimonials` or `case_studies`, those
values appear unchanged in the enriched profile. -/
theorem claim_C6_fallback_no_override (R : RegexOracles)
    (enum : List Str → List Str) (content : Str)
    (parsed ci res : List (Str × JVal))
    (hci : dictGetD parsed "contact_info".toList (.obj []) = .obj ci)
    (henr : enrichProfile R enum content parsed = some res) :
    (∃ ci2, dictLookup res "contact_info".toList = some (.obj ci2) ∧
      ∀ fld ∈ ["email".toList, "phone".toList, "address".toList,
        "social_media".toList],
        truthy (dictGetD ci fld .null) = true →
        dictGetD ci2 fld .null = dictGetD ci fld .null) ∧
    (∀ sp, dictGetD parsed "social_proof".toList (.obj []) = .obj sp →
      ∃ sp2, dictLookup res "social_proof".toList = some (.obj sp2) ∧
        ∀ fld ∈ ["testimonials".toList, "case_studies".toList],
          truthy (dictGetD sp fld .null) = true →
          dictGetD sp2 fld .null = dictGetD sp fld .null) := by
  unfold enrichProfile at henr
  rw [hci] at henr
  dsimp only at henr
  cases hm : dictGetD (dictSet parsed "contact_info".toList
      (.obj (socialStep R content (addrStep R content (phoneStep R content
        (emailStep R enum content ci)))))) "social_proof".toList (.obj []) with
  | obj sp0 =>
      rw [hm] at henr
      dsimp only at henr
      have hres := (Option.some_injective _ henr).symm
      constructor
      · refine ⟨socialStep R content (addrStep R content (phoneStep R content
          (emailStep R enum content ci))), ?_, ?_⟩
        · rw [hres]
          rw [dictLookup_dictSet_ne _ _ _ _ (by decide)]
          exact dictLookup_dictSet_self parsed "contact_info".toList _
        · intro fld hfld ht
          have h1 := emailStep_getD R enum content ci fld ht
          have ht1 : truthy (dictGetD (emailStep R enum content ci) fld
              .null) = true := by rw [h1]; exact ht
          have h2 := phoneStep_getD R content _ fld ht1
          have ht2 : truthy (dictGetD (phoneStep R content
              (emailStep R enum content ci)) fld .null) = true := by
            rw [h2]; exact ht1
          have h3 := addrStep_getD R content _ fld ht2
          have ht3 : truthy (dictGetD (addrStep R content (phoneStep R content
              (emailStep R enum content ci))) fld .null) = true := by
            rw [h3]; exact ht2
          have h4 := socialStep_getD R content _ fld ht3
          rw [h4, h3, h2, h1]
      · intro sp hsp0
        have hd1 : dictGetD (dictSet parsed "contact_info".toList
            (.obj (socialStep R content (addrStep R content (phoneStep R
              content (emailStep R enum content ci))))))
            "social_proof".toList (.obj []) =
            dictGetD parsed "social_proof".toList (.obj []) :=
          dictGetD_dictSet_ne _ _ _ _ _ (by decide)
        have hspEq : sp0 = sp := by
          have h0 : JVal.obj sp0 = JVal.obj sp := by rw [← hm, hd1, hsp0]
          injection h0
        subst hspEq
        refine ⟨clientStep R content (testimonialStep content sp0), ?_, ?_⟩
        · rw [hres]
          exact dictLookup_dictSet_self _ _ _
        · intro fld hfld ht
          have h1 := testimonialStep_getD content sp0 fld ht
          have ht1 : truthy (dictGetD (testimonialStep content sp0) fld
              .null) = true := by rw [h1]; exact ht
          have h2 := clientStep_getD R content _ fld ht1
          rw [h2, h1]
  | null => rw [hm] at henr; simp at henr
  | bool b => rw [hm] at henr; simp at henr
  | num n => rw [hm] at henr; simp at henr
  | str s => rw [hm] at henr; simp at henr
  | arr xs => rw [hm] at henr; simp at henr

/-- Witness for C6: `contact_info.email` already set to `a@b.com`, the email
regex oracle finding a different candidate `x@y.com`; the enriched profile
keeps `a@b.com`. -/
theorem claim_C6_witness :
    enrichProfile
        (onlyEmailOracles ["x@y.com".toList])
        id "call us".toList
        [("contact_info".toList,
          JVal.obj [("email".toList, JVal.str "a@b.com".toList)])] =
      some [("contact_info".toList,
          JVal.obj [("email".toList, JVal.str "a@b.com".toList)]),
        ("social_proof".toList, JVal.obj [])] ∧
    truthy (dictGetD [("email".toList, JVal.str "a@b.com".toList)]
      "email".toList JVal.null) = true ∧
    dictLookup [("contact_info".toList,
          JVal.obj [("email".toList, JVal.str "a@b.com".toList)]),
        ("social_proof".toList, JVal.obj [])] "contact_info".toList =
      some (JVal.obj [("email".toList, JVal.str "a@b.com".toList)]) ∧
    dictGetD [("email".toList, JVal.str "a@b.com".toList)] "email".toList
      JVal.null = JVal.str "a@b.com".toList := by
  have hmain := claim_C6_fallback_no_override
    (onlyEmailOracles ["x@y.com".toList])
    id "call us".toList
    [("contact_info".toList,
      JVal.obj [("email".toList, JVal.str "a@b.com".toList)])]
    [("email".toList, JVal.str "a@b.com".toList)]
    [("contact_info".toList,
        JVal.obj [("email".toList, JVal.str "a@b.com".toList)]),
      ("social_proof".toList, JVal.obj [])]
    rfl rfl
  obtain ⟨⟨ci2, hl, hp⟩, -⟩ := hmain
  exact ⟨rfl, rfl, rfl, rfl⟩

/-- C10: after every successful JSON parse into a dict (and a successful
fallback pass), the returned profile holds the top-level keys `contact_info`
and `social_proof` as dict values — assigned unconditionally — although the
extraction template defines a `contact_information` section and neither a
`contact_info` nor a `social_proof` section; the fallback writes only those
two keys, leaving every other key (in particular the template's own
`contact_information`) untouched. -/
theorem claim_C10_enrichment_keys (R : RegexOracles)
    (enum : List Str → List Str) (content : Str)
    (parsed res : List (Str × JVal))
    (henr : enrichProfile R enum content parsed = some res) :
    (∃ ci2, dictLookup res "contact_info".toList = some (JVal.obj ci2)) ∧
    (∃ sp2, dictLookup res "social_proof".toList = some (JVal.obj sp2)) ∧
    (∀ k, k ≠ "contact_info".toList → k ≠ "social_proof".toList →
      dictLookup res k = dictLookup parsed k) ∧
    dictLookup res "contact_information".toList =
      dictLookup parsed "contact_information".toList ∧
    (loadExtractionTemplate.map Prod.fst).contains
      "contact_information".toList = true ∧
    (loadExtractionTemplate.map Prod.fst).contains
      "social_proof".toList = false ∧
    (loadExtractionTemplate.map Prod.fst).contains
      "contact_info".toList = false := by
  unfold enrichProfile at henr
  cases hm0 : dictGetD parsed "contact_info".toList (.obj []) with
  | obj ci0 =>
      rw [hm0] at henr
      dsimp only at henr
      cases hm : dictGetD (dictSet parsed "contact_info".toList
          (.obj (socialStep R content (addrStep R content (phoneStep R content
            (emailStep R enum content ci0))))))
          "social_proof".toList (.obj []) with
      | obj sp0 =>
          rw [hm] at henr
          dsimp only at henr
          have hres := (Option.some_injective _ henr).symm
          have hframe : ∀ k, k ≠ "contact_info".toList →
              k ≠ "social_proof".toList →
              dictLookup res k = dictLookup parsed k := by
            intro k hk1 hk2
            rw [hres, dictLookup_dictSet_ne _ _ _ _ hk2,
              dictLookup_dictSet_ne _ _ _ _ hk1]
          refine ⟨?_, ?_, hframe, hframe _ (by decide) (by decide),
            by decide, by decide, by decide⟩
          · refine ⟨socialStep R content (addrStep R content (phoneStep R
              content (emailStep R enum content ci0))), ?_⟩
            rw [hres, dictLookup_dictSet_ne _ _ _ _ (by decide)]
            exact dictLookup_dictSet_self _ _ _
          · refine ⟨clientStep R content (testimonialStep content sp0), ?_⟩
            rw [hres]
            exact dictLookup_dictSet_self _ _ _
      | null => rw [hm] at henr; simp at henr
      | bool b => rw [hm] at henr; simp at henr
      | num n => rw [hm] at henr; simp at henr
      | str s => rw [hm] at henr; simp at henr
      | arr xs => rw [hm] at henr; simp at henr
  | null => rw [hm0] at henr; simp at henr
  | bool b => rw [hm0] at henr; simp at henr
  | num n => rw [hm0] at henr; simp at henr
  | str s => rw [hm0] at henr; simp at henr
  | arr xs => rw [hm0] at henr; simp at henr

/-- Witness for C10: a parse that has only the template's
`contact_information` section; the enriched profile gains empty
`contact_info` and `social_proof` dicts and keeps `contact_information`
unchanged. -/
theorem claim_C10_witness :
    enrichProfile
        emptyRegexOracles
        id "hello".toList
        [("contact_information".toList,
          JVal.obj [("registered_address".toList,
            JVal.str "1 Main St".toList)])] =
      some [("contact_information".toList,
          JVal.obj [("registered_address".toList,
            JVal.str "1 Main St".toList)]),
        ("contact_info".toList, JVal.obj []),
        ("social_proof".toList, JVal.obj [])] ∧
    dictLookup [("contact_information".toList,
          JVal.obj [("registered_address".toList,
            JVal.str "1 Main St".toList)]),
        ("contact_info".toList, JVal.obj []),
        ("social_proof".toList, JVal.obj [])] "contact_information".toList =
      some (JVal.obj [("registered_address".toList,
        JVal.str "1 Main St".toList)]) ∧
    (loadExtractionTemplate.map Prod.fst).contains
      "contact_information".toList = true ∧
    (loadExtractionTemplate.map Prod.fst).contains
      "social_proof".toList = false := by
  have hmain := claim_C10_enrichment_keys
    emptyRegexOracles
    id "hello".toList
    [("contact_information".toList,
      JVal.obj [("registered_address".toList, JVal.str "1 Main St".toList)])]
    [("contact_information".toList,
        JVal.obj [("registered_address".toList,
          JVal.str "1 Main St".toList)]),
      ("contact_info".toList, JVal.obj []),
      ("social_proof".toList, JVal.obj [])]
    rfl
  exact ⟨rfl, rfl, hmain.2.2.2.2.1, hmain.2.2.2.2.2.1⟩

/-- C9: `ScrapeWorkflow.run` never propagates an exception: for every oracle
outcome it returns a structured result whose terminal status is `completed`
or `failed`, with an error message present exactly on failure; and an LLM
transport failure is represented as an `extraction_failed` record rather
than an abort. -/
theorem claim_C9_workflow_total (O : WorkflowOracles) (url : Str) :
    ((runWorkflow O url).1.status = "completed".toList ∧
      (runWorkflow O url).1.success = true ∧
      (runWorkflow O url).1.error = none) ∨
    ((runWorkflow O url).1.status = "failed".toList ∧
      (runWorkflow O url).1.success = false ∧
      (runWorkflow O url).1.error.isSome = true) := by
  unfold runWorkflow
  by_cases hs : (!(scrapeWebsite O.resp O.anchorsOf O.enum url).success) = true
  · rw [if_pos hs]
    right
    exact ⟨rfl, rfl, rfl⟩
  · rw [if_neg hs]
    cases hv : validateExtraction (extractCompanyData O
        (O.cleanCombine (scrapeWebsite O.resp O.anchorsOf O.enum
          url).pages_scraped)).1 with
    | error e =>
        right
        simp [hv]
    | ok vr =>
        left
        simp [hv]

/-- An LLM transport error is represented as a structured
`extraction_failed` record rather than an abort (`scraper_agent.py`
lines 62-67). -/
theorem extractCompanyData_error_record (O : WorkflowOracles) (content e : Str)
    (he : O.llm = .error e) :
    extractCompanyData O content =
      (.obj [("error".toList, .str e),
        ("extraction_failed".toList, .bool true)], 1) := by
  unfold extractCompanyData
  rw [he]

/-- C1 (amended, `ScrapeWorkflow.run` part): when the homepage fetch fails,
the workflow result has status `failed` (with an error message) and the
chat-completion capability is never invoked. -/
theorem claim_C1_homepage_shortcircuit (O : WorkflowOracles) (url : Str)
    (hfail : (scrapeUrl (O.resp url) url).success = false) :
    (runWorkflow O url).1.status = "failed".toList ∧
    (runWorkflow O url).1.error.isSome = true ∧
    (runWorkflow O url).2 = 0 := by
  have hscr : scrapeWebsite O.resp O.anchorsOf O.enum url =
      { success := false, base_url := url,
        pages_scraped := [("homepage".toList, scrapeUrl (O.resp url) url)],
        error := some ("Failed to scrape homepage: ".toList ++
          ((scrapeUrl (O.resp url) url).error.getD [])),
        internal_links := none, success_rate := none } := by
    unfold scrapeWebsite
    rw [if_pos (by rw [hfail]; rfl)]
  unfold runWorkflow
  rw [hscr]
  exact ⟨rfl, rfl, rfl⟩

/-- Witness for C1 at a concrete failing homepage fetch. -/
theorem claim_C1_witness :
    (scrapeUrl ((fun _ => HttpOutcome.exc "timeout".toList)
      "https://acme.com".toList) "https://acme.com".toList).success = false ∧
    (runWorkflow
      ⟨fun _ => HttpOutcome.exc "timeout".toList, fun _ => [], id,
       Except.error "unreached".toList, fun _ => none, fun _ => none,
       fun _ => none, fun _ => none, fun _ => [], fun _ => 0,
       Except.ok false⟩
      "https://acme.com".toList).1.status = "failed".toList ∧
    (runWorkflow
      ⟨fun _ => HttpOutcome.exc "timeout".toList, fun _ => [], id,
       Except.error "unreached".toList, fun _ => none, fun _ => none,
       fun _ => none, fun _ => none, fun _ => [], fun _ => 0,
       Except.ok false⟩
      "https://acme.com".toList).2 = 0 := by
  have h := claim_C1_homepage_shortcircuit
    ⟨fun _ => HttpOutcome.exc "timeout".toList, fun _ => [], id,
     Except.error "unreached".toList, fun _ => none, fun _ => none,
     fun _ => none, fun _ => none, fun _ => [], fun _ => 0,
     Except.ok false⟩
    "https://acme.com".toList rfl
  exact ⟨rfl, h.1, h.2.2⟩

/-- Counterexample to C1 as stated: in the `scrapetest.py` entry point the
homepage fetch fails, the crawl is aborted — yet `main` still calls
`extract_company_data_with_gpt`, which invokes the chat-completion
capability (invocation count 1, not 0), and no job status is produced at
all. -/
theorem claim_C1_counterexample :
    (scrapeWebsitePage (HttpOutcome.exc "timeout".toList)
      "https://acme.com".toList).success = false ∧
    (scrapetestMain
      ⟨fun _ => HttpOutcome.exc "timeout".toList, fun _ => [], id,
       fun _ => ⟨[], [], []⟩, fun _ => [], fun _ => [],
       emptyRegexOracles,
       Except.error "api down".toList, fun _ => none⟩
      "https://acme.com".toList).2 = 1 := by
  exact ⟨rfl, rfl⟩
